import Mathlib

/-!
Shallow embedding of the freifunk-map-modern server pipeline.

Conventions of the embedding:
* Go `float64` fields carry values that always originate from JSON numbers
  (JSON cannot encode NaN or infinities), so they are modelled by `Rat`.
  Equality tests on such fields (`!=` in Go) become `Rat` equality.
* Go `map[string]T` is modelled by an association list `List (String × T)`
  with Go map semantics: insertion overwrites the binding in place,
  otherwise appends; lookups return the unique binding.  Iteration order of
  a Go map is unspecified; the model iterates in list order, which is one
  admissible order.
* `math.Sin`/`Cos`/... (used only by `Haversine`) are not representable as
  computable rationals; the snapshot builder is therefore parametrised by
  the distance function `hav`.  No claim concerns the numeric value of a
  distance.
* Timestamps are kept as the raw strings the code passes around
  (`time.Parse` is only used for the snapshot capture time, which no claim
  touches).
-/

namespace FFMap

/-- Carrier for Go `float64` values that originate from JSON numbers. -/
abbrev F := Rat

/-! ## store: helpers (`AppendUnique`, Go map operations, histograms) -/

/-- `store.AppendUnique`: append `v` to `s` unless already present. -/
def AppendUnique (s : List String) (v : String) : List String :=
  if v ∈ s then s else s ++ [v]

/-- Substring test, modelling Go `strings.Contains` (first index search). -/
def findSub (l pat : List Char) : Option Nat :=
  match l with
  | [] => if pat.isEmpty then some 0 else none
  | _ :: rest => if pat.isPrefixOf l then some 0 else (findSub rest pat).map (· + 1)

/-- Go `strings.Contains s sub`. -/
def strContains (s sub : String) : Bool :=
  (findSub s.data sub.data).isSome

/-- Go `strings.TrimPrefix`: drop `pre` when it is a prefix, else unchanged. -/
def trimPre (s pre : String) : String :=
  if pre.data.isPrefixOf s.data then ⟨s.data.drop pre.data.length⟩ else s

/-- ASCII lowercasing of one character (the hostnames and schemes the code
lowercases are ASCII; Go `strings.ToLower`). -/
def chLower (c : Char) : Char :=
  if 65 ≤ c.toNat ∧ c.toNat ≤ 90 then Char.ofNat (c.toNat + 32) else c

/-- Go `strings.ToLower`. -/
def strLower (s : String) : String := ⟨s.data.map chLower⟩

/-- Go `strings.Split` with a one-character separator (both uses in the
code split on `"/"` or `"."`).  Never returns `[]`. -/
def splitOnCh (c : Char) : List Char → List (List Char)
  | [] => [[]]
  | x :: rest =>
    let r := splitOnCh c rest
    if x = c then [] :: r
    else
      match r with
      | [] => [[x]]
      | seg :: segs => (x :: seg) :: segs

/-- Lookup in a Go `map[string]α` modelled as an association list. -/
def mapLookup {α : Type} (m : List (String × α)) (k : String) : Option α :=
  match m.find? (fun p => decide (p.1 = k)) with
  | some p => some p.2
  | none => none

/-- Go map insertion: overwrite the binding in place, else append. -/
def mapInsert {α : Type} (m : List (String × α)) (k : String) (v : α) :
    List (String × α) :=
  if m.any (fun p => decide (p.1 = k)) then
    m.map (fun p => if p.1 = k then (k, v) else p)
  else m ++ [(k, v)]

/-- Apply `f` to the value bound to `k` (no-op when `k` is absent). -/
def mapAdjust {α : Type} (m : List (String × α)) (k : String) (f : α → α) :
    List (String × α) :=
  m.map (fun p => if p.1 = k then (p.1, f p.2) else p)

/-- Go histogram increment `m[k]++` on a `map[string]int`. -/
def bump (m : List (String × Nat)) (k : String) : List (String × Nat) :=
  match mapLookup m k with
  | some n => mapInsert m k (n + 1)
  | none => mapInsert m k 1

/-- Histogram read-out: `m[k]` with Go zero-value default. -/
def histCount (m : List (String × Nat)) (k : String) : Nat :=
  (mapLookup m k).getD 0

/-! ## store: raw wire types (`MeshviewerData`) -/

/-- `store.RawLocation`. -/
structure RawLocation where
  longitude : F
  latitude : F
deriving DecidableEq, Repr

/-- `store.RawFirmware`. -/
structure RawFirmware where
  base : String := ""
  release : String := ""
  target : String := ""
  subtarget : String := ""
  imageName : String := ""
deriving DecidableEq, Repr

/-- `store.RawAutoUpd`.  `FlexBool` coerces to a plain boolean. -/
structure RawAutoUpd where
  enabled : Bool := false
  branch : String := ""
deriving DecidableEq, Repr

/-- `store.RawNode` (one record of a meshviewer.json `nodes` array). -/
structure RawNode where
  firstseen : String := ""
  lastseen : String := ""
  isOnline : Bool := false
  isGateway : Bool := false
  clients : Int := 0
  clientsW24 : Int := 0
  clientsW5 : Int := 0
  clientsOth : Int := 0
  rootfsUsage : F := 0
  loadAvg : F := 0
  memoryUsage : F := 0
  uptime : String := ""
  gwNexthop : String := ""
  gateway : String := ""
  gateway6 : String := ""
  nodeID : String := ""
  mac : String := ""
  addresses : List String := []
  domain : String := ""
  hostname : String := ""
  owner : String := ""
  location : Option RawLocation := none
  firmware : RawFirmware := {}
  autoupdater : RawAutoUpd := {}
  nproc : Int := 0
  model : String := ""
deriving DecidableEq, Repr

/-- `store.RawLink`. -/
structure RawLink where
  source : String := ""
  target : String := ""
  sourceTQ : F := 0
  targetTQ : F := 0
  type : String := ""
deriving DecidableEq, Repr

/-- `store.MeshviewerData`. -/
structure MeshviewerData where
  timestamp : String := ""
  nodes : List RawNode := []
  links : List RawLink := []
deriving DecidableEq, Repr

/-! ## store: processed API types -/

/-- `store.Node` (canonical processed node). -/
structure Node where
  nodeID : String := ""
  hostname : String := ""
  isOnline : Bool := false
  isGateway : Bool := false
  clients : Int := 0
  clientsW24 : Int := 0
  clientsW5 : Int := 0
  clientsOth : Int := 0
  domain : String := ""
  domainName : String := ""
  community : String := ""
  communities : List String := []
  model : String := ""
  firmware : String := ""
  fwBase : String := ""
  autoupdater : Bool := false
  branch : String := ""
  owner : String := ""
  mac : String := ""
  lat : Option F := none
  lng : Option F := none
  uptime : String := ""
  loadAvg : F := 0
  memUsage : F := 0
  rootfsUsage : F := 0
  gateway : String := ""
  firstseen : String := ""
  lastseen : String := ""
  nproc : Int := 0
  addresses : List String := []
  imageName : String := ""
  neighbours : List String := []
deriving DecidableEq, Repr

/-- `store.Link`. -/
structure Link where
  source : String := ""
  target : String := ""
  sourceTQ : F := 0
  targetTQ : F := 0
  type : String := ""
  distance : F := 0
deriving DecidableEq, Repr

/-- `store.Stats`.
Counters are `Nat` (they are only ever incremented); `totalClients` sums
Go `int` client counts and is therefore `Int`. -/
structure Stats where
  totalNodes : Nat := 0
  onlineNodes : Nat := 0
  totalClients : Int := 0
  gateways : Nat := 0
  domains : List (String × Nat) := []
  models : List (String × Nat) := []
  firmwares : List (String × Nat) := []
  gluonVersions : List (String × Nat) := []
  communities : List (String × Nat) := []
  timestamp : String := ""
deriving DecidableEq, Repr

/-- `store.Snapshot`.  `nodes` is the node map; `timestamp` keeps the raw
string (`time.Parse` is not modelled; no claim concerns it). -/
structure Snapshot where
  nodes : List (String × Node) := []
  nodeList : List Node := []
  links : List Link := []
  stats : Stats := {}
  timestamp : String := ""
deriving DecidableEq, Repr

/-- `store.NodeDiff`. -/
structure NodeDiff where
  nodeID : String := ""
  hostname : String := ""
  isOnline : Bool := false
  clients : Int := 0
  loadAvg : F := 0
  memUsage : F := 0
deriving DecidableEq, Repr

/-- `store.SSEUpdate`. -/
structure SSEUpdate where
  type : String := ""
  stats : Stats := {}
  changed : List NodeDiff := []
  gone : List String := []
  new : List String := []
deriving DecidableEq, Repr

/-! ## store: `ProcessData` (snapshot builder) -/

/-- The geo-validity check of `ProcessData`: a location is kept iff it is
present, `|lat| < 90`, `|lon| < 180`, and not exactly `(0, 0)`. -/
def validLocation (loc : Option RawLocation) : Option RawLocation :=
  match loc with
  | none => none
  | some l =>
    if |l.latitude| < 90 ∧ |l.longitude| < 180 ∧ (l.latitude ≠ 0 ∨ l.longitude ≠ 0)
    then some l else none

/-- The per-record node construction of `ProcessData` (everything before the
link pass; `neighbours` starts empty and is filled by the link pass). -/
def mkNode (domainNames : List (String × String)) (rn : RawNode) : Node :=
  { nodeID := rn.nodeID
    hostname := rn.hostname
    isOnline := rn.isOnline
    isGateway := rn.isGateway
    clients := rn.clients
    clientsW24 := rn.clientsW24
    clientsW5 := rn.clientsW5
    clientsOth := rn.clientsOth
    domain := rn.domain
    domainName := (mapLookup domainNames rn.domain).getD ""
    model := rn.model
    firmware := rn.firmware.release
    fwBase := rn.firmware.base
    autoupdater := rn.autoupdater.enabled
    branch := rn.autoupdater.branch
    owner := rn.owner
    mac := rn.mac
    lat := (validLocation rn.location).map (·.latitude)
    lng := (validLocation rn.location).map (·.longitude)
    uptime := rn.uptime
    loadAvg := rn.loadAvg
    memUsage := rn.memoryUsage
    rootfsUsage := rn.rootfsUsage
    gateway := rn.gateway
    firstseen := rn.firstseen
    lastseen := rn.lastseen
    nproc := rn.nproc
    addresses := rn.addresses
    imageName := rn.firmware.imageName
    neighbours := [] }

/-- The per-record stats tally of `ProcessData`'s node loop. -/
def tallyNode (domainNames : List (String × String)) (st : Stats) (rn : RawNode) :
    Stats :=
  let st := { st with totalNodes := st.totalNodes + 1 }
  let st :=
    if rn.isOnline then
      { st with onlineNodes := st.onlineNodes + 1
                totalClients := st.totalClients + rn.clients }
    else st
  let st := if rn.isGateway then { st with gateways := st.gateways + 1 } else st
  let st :=
    if rn.domain ≠ "" then
      let dn := (mapLookup domainNames rn.domain).getD rn.domain
      { st with domains := bump st.domains dn }
    else st
  let st :=
    if rn.model ≠ "" then { st with models := bump st.models rn.model } else st
  let st :=
    if rn.firmware.release ≠ "" then
      { st with firmwares := bump st.firmwares rn.firmware.release }
    else st
  if rn.firmware.base ≠ "" then
    { st with gluonVersions := bump st.gluonVersions rn.firmware.base }
  else st

/-- The stats accumulated by `ProcessData`'s node loop. -/
def statsOfRaw (domainNames : List (String × String)) (raw : MeshviewerData) :
    Stats :=
  raw.nodes.foldl (tallyNode domainNames) { timestamp := raw.timestamp }

/-- The node map built by `ProcessData`'s node loop (`nodes[rn.NodeID] = n`;
for duplicate ids the last record wins, exactly like a Go map insert). -/
def buildNodeMap (domainNames : List (String × String)) (raws : List RawNode) :
    List (String × Node) :=
  raws.foldl (fun m rn => mapInsert m rn.nodeID (mkNode domainNames rn)) []

/-- Signature of `store.Haversine`; the trigonometric body is not
representable over `Rat`, so the builder is parametrised by it. -/
abbrev HaversineFn := F → F → F → F → F

/-- One iteration of `ProcessData`'s link loop: build the `Link` (with a
distance when both endpoints are in the map and located), then append each
endpoint's id to the other's neighbour list via `AppendUnique`.  The target
update reads the map after the source update, mirroring the pointer
aliasing of the Go code when `source = target`. -/
def processLink (hav : HaversineFn) (m : List (String × Node)) (rl : RawLink) :
    List (String × Node) × Link :=
  let l0 : Link :=
    { source := rl.source, target := rl.target, sourceTQ := rl.sourceTQ,
      targetTQ := rl.targetTQ, type := rl.type, distance := 0 }
  let l :=
    match mapLookup m rl.source, mapLookup m rl.target with
    | some sn, some tn =>
      match sn.lat, sn.lng, tn.lat, tn.lng with
      | some slat, some slng, some tlat, some tlng =>
        { l0 with distance := hav slat slng tlat tlng }
      | _, _, _, _ => l0
    | _, _ => l0
  let m1 :=
    if (mapLookup m rl.source).isSome then
      mapAdjust m rl.source
        (fun n => { n with neighbours := AppendUnique n.neighbours rl.target })
    else m
  let m2 :=
    if (mapLookup m1 rl.target).isSome then
      mapAdjust m1 rl.target
        (fun n => { n with neighbours := AppendUnique n.neighbours rl.source })
    else m1
  (m2, l)

/-- `ProcessData`'s link loop over the whole raw link list. -/
def processLinks (hav : HaversineFn) (m : List (String × Node)) :
    List RawLink → List (String × Node) × List Link
  | [] => (m, [])
  | rl :: rest =>
    let ml := processLink hav m rl
    let rest' := processLinks hav ml.1 rest
    (rest'.1, ml.2 :: rest'.2)

/-- The node list before sorting.  In Go, `nodeList[i]` is the object
created for raw record `i`; the node map holds, for each id, the object of
the *last* record with that id, and only those shared objects receive the
neighbour updates of the link loop.  So position `i` shows the (updated)
map entry when `i` is the last occurrence of its id, and the untouched
freshly built node otherwise. -/
def buildNodeList (domainNames : List (String × String))
    (m : List (String × Node)) : List RawNode → List Node
  | [] => []
  | rn :: rest =>
    (if rest.any (fun r => decide (r.nodeID = rn.nodeID)) then
      mkNode domainNames rn
    else
      (mapLookup m rn.nodeID).getD (mkNode domainNames rn)) ::
    buildNodeList domainNames m rest

/-- The comparison passed to `sort.Slice`: `is_online` descending, then
lowercased hostname ascending. -/
def nodeLess (a b : Node) : Bool :=
  if a.isOnline ≠ b.isOnline then a.isOnline
  else decide (a.hostname.toLower < b.hostname.toLower)

/-- Total preorder induced by `nodeLess`; `sort.Slice` guarantees the
result is sorted with respect to it. -/
def nodeLe (a b : Node) : Bool := !nodeLess b a

/-- `store.ProcessData`: build the node map, stats, links with neighbour
derivation, and the sorted node list. -/
def ProcessData (hav : HaversineFn) (domainNames : List (String × String))
    (raw : MeshviewerData) : Snapshot :=
  let m0 := buildNodeMap domainNames raw.nodes
  let ml := processLinks hav m0 raw.links
  { nodes := ml.1
    nodeList := (buildNodeList domainNames ml.1 raw.nodes).mergeSort nodeLe
    links := ml.2
    stats := statsOfRaw domainNames raw
    timestamp := raw.timestamp }

/-! ## store: `ComputeDiff` -/

/-- `store.ComputeDiff`: full / diff / stats update between snapshots.
`old = none` models the Go `nil` pointer. -/
def ComputeDiff (old : Option Snapshot) (cur : Snapshot) : SSEUpdate :=
  match old with
  | none => { type := "full", stats := cur.stats }
  | some o =>
    if o.nodes.length = 0 then { type := "full", stats := cur.stats }
    else
      let newIDs :=
        (cur.nodes.filter (fun p => (mapLookup o.nodes p.1).isNone)).map (·.1)
      let changed :=
        cur.nodes.filterMap (fun p =>
          match mapLookup o.nodes p.1 with
          | none => none
          | some oldN =>
            if oldN.isOnline ≠ p.2.isOnline ∨ oldN.clients ≠ p.2.clients ∨
               oldN.loadAvg ≠ p.2.loadAvg ∨ oldN.memUsage ≠ p.2.memUsage then
              some { nodeID := p.1, hostname := p.2.hostname,
                     isOnline := p.2.isOnline, clients := p.2.clients,
                     loadAvg := p.2.loadAvg, memUsage := p.2.memUsage }
            else none)
      let goneIDs :=
        (o.nodes.filter (fun p => (mapLookup cur.nodes p.1).isNone)).map (·.1)
      if changed.length = 0 ∧ newIDs.length = 0 ∧ goneIDs.length = 0 then
        { type := "stats", stats := cur.stats }
      else
        { type := "diff", stats := cur.stats, changed := changed,
          gone := goneIDs, new := newIDs }

/-! ## federation: data model -/

/-- `federation.Community` (fields used by the state and merge paths). -/
structure Community where
  key : String := ""
  name : String := ""
  url : String := ""
  lat : F := 0
  lng : F := 0
  nodeCount : Int := 0
  meshviewerURLs : List String := []
  nodelistURLs : List String := []
  grafanaURL : String := ""
  metacommunity : String := ""
  allKeys : List String := []
deriving DecidableEq, Repr

/-- `federation.CommunitySource`. -/
structure CommunitySource where
  communityKey : String := ""
  communityKeys : List String := []
  dataURL : String := ""
  dataType : String := ""
  grafanaURL : String := ""
  mapURLs : List String := []
deriving DecidableEq, Repr

/-- `federation.GrafanaInfo` (fields used by the metrics path). -/
structure GrafanaInfo where
  baseURL : String := ""
  dashboardURL : String := ""
  datasourceID : Int := 0
  database : String := ""
  dataPaths : List String := []
deriving DecidableEq, Repr

/-- The `node_id → [community keys]` multi-map of the federation store. -/
abbrev NodeCommMap := List (String × List String)

/-! ## federation: `RefreshAllSources` merge -/

/-- One fetch result of the `RefreshAllSources` fan-out.  `data = none`
models a failed or empty fetch (`r.err != nil` or `r.data == nil`); the
channel delivery order becomes the list order. -/
structure FetchResult where
  communityKey : String := ""
  communityKeys : List String := []
  data : Option MeshviewerData := none
deriving Repr

/-- The `gwRename` map of `RefreshAllSources`, extensionally: an original
id is renamed iff some gateway node of the source carries it (non-empty);
the renamed value `orig ++ "_" ++ key` does not depend on which node. -/
def gwRenameLookup (key : String) (nodes : List RawNode) (orig : String) :
    Option String :=
  if orig ≠ "" ∧ ∃ n ∈ nodes, n.isGateway = true ∧ n.nodeID = orig then
    some (orig ++ "_" ++ key)
  else none

/-- The id-suffixing of the first gateway loop of `RefreshAllSources`. -/
def gwSuffixNode (key : String) (n : RawNode) : RawNode :=
  if n.isGateway = true ∧ n.nodeID ≠ "" then
    { n with nodeID := n.nodeID ++ "_" ++ key }
  else n

/-- The `gateway` back-reference rewrite of the second loop. -/
def gwRefNode (ren : String → Option String) (n : RawNode) : RawNode :=
  match ren n.gateway with
  | some g => { n with gateway := g }
  | none => n

/-- The link-endpoint rewrite of the third loop. -/
def gwLink (ren : String → Option String) (l : RawLink) : RawLink :=
  { l with source := (ren l.source).getD l.source,
           target := (ren l.target).getD l.target }

/-- The per-source gateway renaming block of `RefreshAllSources`:
suffix every gateway's non-empty id with `_<community key>`, then rewrite
`gateway` back-references and link endpoints through the rename map. -/
def rewriteGateways (key : String) (d : MeshviewerData) : MeshviewerData :=
  let ren := gwRenameLookup key d.nodes
  { d with nodes := (d.nodes.map (gwSuffixNode key)).map (gwRefNode ren),
           links := d.links.map (gwLink ren) }

/-- Accumulator of the merge loop of `RefreshAllSources`. -/
structure MergeAcc where
  nodes : List RawNode := []
  links : List RawLink := []
  seenNodes : List String := []
  seenLinks : List String := []
  nodeCommMap : NodeCommMap := []
deriving Repr

/-- Record the community keys of a node id in the multi-map
(`nodeCommMap[nid] = AppendUnique(nodeCommMap[nid], ck)` per key). -/
def recordComms (m : NodeCommMap) (nid : String) (allComms : List String) :
    NodeCommMap :=
  allComms.foldl
    (fun m ck => mapInsert m nid (AppendUnique ((mapLookup m nid).getD []) ck)) m

/-- The node half of the merge loop body: default the domain to the
community key, skip empty ids, record community keys, and keep the first
node seen per id. -/
def mergeNodes (key : String) (allComms : List String) (acc : MergeAcc)
    (nodes : List RawNode) : MergeAcc :=
  nodes.foldl
    (fun acc n0 =>
      let n := if n0.domain = "" then { n0 with domain := key } else n0
      if n.nodeID = "" then acc
      else
        let acc :=
          { acc with nodeCommMap := recordComms acc.nodeCommMap n.nodeID allComms }
        if n.nodeID ∈ acc.seenNodes then acc
        else
          { acc with seenNodes := acc.seenNodes ++ [n.nodeID],
                     nodes := acc.nodes ++ [n] })
    acc

/-- The link half of the merge loop body: deduplicate by the
`source>target` ordered pair. -/
def mergeLinks (acc : MergeAcc) (links : List RawLink) : MergeAcc :=
  links.foldl
    (fun acc l =>
      let lk := l.source ++ ">" ++ l.target
      if lk ∈ acc.seenLinks then acc
      else
        { acc with seenLinks := acc.seenLinks ++ [lk],
                   links := acc.links ++ [l] })
    acc

/-- One iteration of the merge loop: failed fetches are skipped; otherwise
the source's data is gateway-rewritten and folded into the accumulator. -/
def mergeOne (acc : MergeAcc) (r : FetchResult) : MergeAcc :=
  match r.data with
  | none => acc
  | some d0 =>
    let allComms :=
      if r.communityKeys.length = 0 then [r.communityKey] else r.communityKeys
    let d := rewriteGateways r.communityKey d0
    let acc := mergeNodes r.communityKey allComms acc d.nodes
    mergeLinks acc d.links

/-- The whole merge of `RefreshAllSources`: merged raw data (timestamp is
the wall-clock `now` string) and the rebuilt `node_id → keys` multi-map. -/
def mergeResults (now : String) (results : List FetchResult) :
    MeshviewerData × NodeCommMap :=
  let acc := results.foldl mergeOne {}
  ({ timestamp := now, nodes := acc.nodes, links := acc.links }, acc.nodeCommMap)

/-- The domain-name augmentation used before `ProcessData`: community keys
map to community names, then the operator-configured map is layered on
top. -/
def fedDomainNames (communities : List Community)
    (cfgDomainNames : List (String × String)) : List (String × String) :=
  let base := communities.foldl (fun m c => mapInsert m c.key c.name) []
  cfgDomainNames.foldl (fun m p => mapInsert m p.1 p.2) base

/-- The per-node community tagging of `RefreshAllSources` and
`RestoreState`: a node with a non-empty key list gets
`Community`/`Communities` set. -/
def tagNode (ncm : NodeCommMap) (n : Node) : Node :=
  match (mapLookup ncm n.nodeID).getD [] with
  | [] => n
  | c :: cs => { n with community := c, communities := c :: cs }

/-- The `communityStats` tally: one `bump` per community key per node of
the map. -/
def commStats (ncm : NodeCommMap) (entries : List (String × Node)) :
    List (String × Nat) :=
  entries.foldl
    (fun st p => ((mapLookup ncm p.2.nodeID).getD []).foldl bump st) []

/-- The community tagging applied after the snapshot build (both in
`RefreshAllSources` and in `RestoreState`): for every node of the map with
a non-empty key list, set `Community`/`Communities` and tally
`Stats.Communities`.  The Go code mutates the `*Node` objects shared
between the map and the node list; list entries whose map binding is the
same object receive the same update. -/
def applyCommunityTags (ncm : NodeCommMap) (snap : Snapshot) : Snapshot :=
  { snap with
    nodes := snap.nodes.map (fun p => (p.1, tagNode ncm p.2))
    nodeList := snap.nodeList.map (fun n =>
      if mapLookup snap.nodes n.nodeID = some n then tagNode ncm n else n)
    stats := { snap.stats with communities := commStats ncm snap.nodes } }

/-- The pure core of `RefreshAllSources` after the fan-out: merge all fetch
results, build the snapshot under the augmented domain-name map, tag
community keys, and recompute `Stats.Communities`.  Returns the published
snapshot and the new multi-map. -/
def buildFedSnapshot (hav : HaversineFn)
    (cfgDomainNames : List (String × String)) (communities : List Community)
    (now : String) (results : List FetchResult) : Snapshot × NodeCommMap :=
  let mr := mergeResults now results
  let snap := ProcessData hav (fedDomainNames communities cfgDomainNames) mr.1
  (applyCommunityTags mr.2 snap, mr.2)

/-! ## federation: state persistence (`SaveState` / `RestoreState`) -/

/-- The on-disk `stateCache` document (`snapshot` is always written by
`SaveState`; a missing snapshot in a foreign file is modelled by empty
lists failing the restore guard only through `communities`/`sources`). -/
structure StateCache where
  communities : List Community := []
  sources : List CommunitySource := []
  nodeCommMap : NodeCommMap := []
  snapNodes : List RawNode := []
  snapLinks : List RawLink := []
  savedAt : String := ""
deriving Repr

/-- The node conversion of `SaveState`: a processed node back to raw form.
Fields `SaveState` does not copy (`gw_nexthop`, `gateway6`, firmware
target/subtarget) stay at their zero values. -/
def nodeToRaw (n : Node) : RawNode :=
  { nodeID := n.nodeID
    hostname := n.hostname
    isOnline := n.isOnline
    isGateway := n.isGateway
    clients := n.clients
    clientsW24 := n.clientsW24
    clientsW5 := n.clientsW5
    clientsOth := n.clientsOth
    domain := n.domain
    mac := n.mac
    owner := n.owner
    uptime := n.uptime
    loadAvg := n.loadAvg
    memoryUsage := n.memUsage
    rootfsUsage := n.rootfsUsage
    gateway := n.gateway
    lastseen := n.lastseen
    firstseen := n.firstseen
    nproc := n.nproc
    addresses := n.addresses
    model := n.model
    firmware := { release := n.firmware, base := n.fwBase,
                  imageName := n.imageName }
    autoupdater := { enabled := n.autoupdater, branch := n.branch }
    location :=
      match n.lat, n.lng with
      | some la, some ln => some { latitude := la, longitude := ln }
      | _, _ => none }

/-- The link conversion of `SaveState`. -/
def linkToRaw (l : Link) : RawLink :=
  { source := l.source, target := l.target, sourceTQ := l.sourceTQ,
    targetTQ := l.targetTQ, type := l.type }

/-- `federation.SaveState`: skip when the snapshot is empty, else write the
cache document (`none` models the early return with no file written). -/
def SaveState (communities : List Community) (sources : List CommunitySource)
    (ncm : NodeCommMap) (snap : Snapshot) (now : String) : Option StateCache :=
  if snap.nodes.length = 0 then none
  else some
    { communities := communities
      sources := sources
      nodeCommMap := ncm
      snapNodes := snap.nodeList.map nodeToRaw
      snapLinks := snap.links.map linkToRaw
      savedAt := now }

/-- `federation.RestoreState` (the successful path): reject caches with no
communities or sources, rebuild the snapshot from the cached raw data
under the augmented domain-name map, and re-apply community tagging from
the persisted multi-map. -/
def RestoreState (hav : HaversineFn)
    (cfgDomainNames : List (String × String)) (cache : StateCache) :
    Option Snapshot :=
  if cache.communities.length = 0 ∨ cache.sources.length = 0 then none
  else
    let raw : MeshviewerData :=
      { timestamp := cache.savedAt, nodes := cache.snapNodes,
        links := cache.snapLinks }
    let snap :=
      ProcessData hav (fedDomainNames cache.communities cfgDomainNames) raw
    some (applyCommunityTags cache.nodeCommMap snap)

/-! ## federation: `GrafanaInfoForNode` and the metrics handler gate -/

/-- Go `strings.TrimSuffix` (suffix test and removal over characters). -/
def trimSuf (s suffixStr : String) : String :=
  if suffixStr.data.isSuffixOf s.data then
    ⟨s.data.take (s.data.length - suffixStr.data.length)⟩
  else s

/-- The original-id recovery of `GrafanaInfoForNode`: strip the
`_<community key>` suffix for the first matching key. -/
def findOriginalID (comms : List String) (nodeID : String) : String :=
  match comms.find? (fun ck => ("_" ++ ck).data.isSuffixOf nodeID.data) with
  | some ck => trimSuf nodeID ("_" ++ ck)
  | none => nodeID

/-- The info-selection loop of `GrafanaInfoForNode`: first cached entry
with a positive datasource id wins; otherwise the first entry seen with a
base URL is remembered as fallback. -/
def selectGrafanaInfo (cache : List (String × GrafanaInfo)) :
    List String → GrafanaInfo → GrafanaInfo
  | [], best => best
  | ck :: rest, best =>
    match mapLookup cache ck with
    | none => selectGrafanaInfo cache rest best
    | some info =>
      if info.datasourceID > 0 then info
      else if best.baseURL = "" then selectGrafanaInfo cache rest info
      else selectGrafanaInfo cache rest best

/-- `federation.GrafanaInfoForNode`: the best Grafana info for a node and
its original id (gateway community suffix stripped). -/
def GrafanaInfoForNode (ncm : NodeCommMap)
    (cache : List (String × GrafanaInfo)) (nodeID : String) :
    GrafanaInfo × String :=
  let comms := (mapLookup ncm nodeID).getD []
  (selectGrafanaInfo cache comms {}, findOriginalID comms nodeID)

/-- The character class accepted by the metrics handler's sanitizer:
hex digits, colon, dash. -/
def isValidIDChar (c : Char) : Bool :=
  (decide ('0' ≤ c) && decide (c ≤ '9')) ||
  (decide ('a' ≤ c) && decide (c ≤ 'f')) ||
  (decide ('A' ≤ c) && decide (c ≤ 'F')) ||
  c == ':' || c == '-'

/-- Outcome of the resolution-and-validation prefix of
`handleNodeMetrics`.  `proceed` is the only outcome that goes on to build
and issue upstream time-series queries. -/
inductive MetricsOutcome where
  | badRequest (msg : String)
  | notFound
  | serviceUnavailable
  | proceed (grafanaURL : String) (dsID : Int) (dbName : String)
      (queryNodeID : String)
deriving DecidableEq, Repr

/-- The sanitizer loop of `handleNodeMetrics`: 400 on the first character
outside `[0-9a-fA-F:-]`. -/
def sanitizeNodeID (grafanaURL : String) (dsID : Int) (dbName : String)
    (queryNodeID : String) : MetricsOutcome :=
  if queryNodeID.data.any (fun c => !isValidIDChar c) then
    .badRequest "invalid node_id"
  else .proceed grafanaURL dsID dbName queryNodeID

/-- The resolution-and-validation prefix of `api.handleNodeMetrics`:
extract the node id from the path, resolve Grafana info (federation mode
when `fed` is present, static configuration otherwise), then sanitize the
query node id.  Everything after this prefix issues upstream queries. -/
def handleNodeMetrics (fed : Option (NodeCommMap × List (String × GrafanaInfo)))
    (cfgGrafanaURL : String) (path : String) : MetricsOutcome :=
  let nodeID0 := trimPre path "/api/metrics/"
  let nodeID : String := ⟨(splitOnCh '/' nodeID0.data).headD []⟩
  if nodeID = "" then .badRequest "node_id required"
  else
    match fed with
    | some (ncm, cache) =>
      let ir := GrafanaInfoForNode ncm cache nodeID
      if ir.1.baseURL = "" ∨ ir.1.datasourceID = 0 then .notFound
      else
        let dbName := if ir.1.database = "" then "yanic" else ir.1.database
        sanitizeNodeID ir.1.baseURL ir.1.datasourceID dbName ir.2
    | none =>
      if cfgGrafanaURL = "" then .serviceUnavailable
      else sanitizeNodeID cfgGrafanaURL 5 "yanic" nodeID

/-! ## urlcheck: IP addresses

Model of the parts of Go `net` used by `urlcheck.IsSafeURL`.  IPv4
addresses are four octets; IPv6 addresses are sixteen bytes.  IPv6
*literal parsing* is not modelled: bracketed IPv6 hosts fall through to
the DNS oracle (which may still return `IP.v6` addresses); the claim's
examples and the repository's hosts are dotted-quad or named. -/

/-- A parsed IP address. -/
inductive IP where
  | v4 (a b c d : Nat)
  | v6 (bytes : List Nat)
deriving DecidableEq, Repr

/-- Go `net.IP.IsLoopback`. -/
def IP.isLoopback : IP → Bool
  | .v4 a _ _ _ => a == 127
  | .v6 bs => bs == [0, 0, 0, 0, 0, 0, 0, 0, 0, 0, 0, 0, 0, 0, 0, 1]

/-- Go `net.IP.IsPrivate` (RFC 1918 for IPv4, ULA `fc00::/7` for IPv6). -/
def IP.isPrivate : IP → Bool
  | .v4 a b _ _ =>
    a == 10 || (a == 172 && b &&& 0xf0 == 16) || (a == 192 && b == 168)
  | .v6 bs =>
    match bs with
    | b0 :: _ => b0 &&& 0xfe == 0xfc
    | [] => false

/-- Go `net.IP.IsLinkLocalUnicast` (`169.254/16`, `fe80::/10`). -/
def IP.isLinkLocalUnicast : IP → Bool
  | .v4 a b _ _ => a == 169 && b == 254
  | .v6 bs =>
    match bs with
    | b0 :: b1 :: _ => b0 == 0xfe && b1 &&& 0xc0 == 0x80
    | _ => false

/-- Go `net.IP.IsLinkLocalMulticast` (`224.0.0/24`, `ff02::/16`). -/
def IP.isLinkLocalMulticast : IP → Bool
  | .v4 a b c _ => a == 224 && b == 0 && c == 0
  | .v6 bs =>
    match bs with
    | b0 :: b1 :: _ => b0 == 0xff && b1 &&& 0x0f == 0x02
    | _ => false

/-- Go `net.IP.IsUnspecified` (`0.0.0.0` or `::`). -/
def IP.isUnspecified : IP → Bool
  | .v4 a b c d => a == 0 && b == 0 && c == 0 && d == 0
  | .v6 bs => bs == List.replicate 16 0

/-- `urlcheck.isPrivateIP`. -/
def isPrivateIP (ip : IP) : Bool :=
  ip.isLoopback || ip.isPrivate || ip.isLinkLocalUnicast ||
  ip.isLinkLocalMulticast || ip.isUnspecified

/-- One dotted-quad field, per Go `net.ParseIP`: 1-3 digits, value ≤ 255,
no leading zero. -/
def parseIPv4Field (s : List Char) : Option Nat :=
  if s.isEmpty ∨ s.length > 3 ∨ ¬ s.all (·.isDigit) then none
  else if s.length > 1 ∧ s.headD '0' = '0' then none
  else
    let v := s.foldl (fun acc c => acc * 10 + (c.toNat - '0'.toNat)) 0
    if v ≤ 255 then some v else none

/-- Model of Go `net.ParseIP` restricted to dotted-quad literals (see the
section comment for the IPv6 limitation). -/
def parseIP (s : String) : Option IP :=
  match (splitOnCh '.' s.data).map parseIPv4Field with
  | [some a, some b, some c, some d] => some (.v4 a b c d)
  | _ => none

/-! ## urlcheck: URL parsing

Model of the slice of `net/url.Parse` that `IsSafeURL` observes: the
(lowercased) scheme and the hostname of the authority.  Strings with
control characters fail to parse; a URL without a valid `scheme://`
prefix parses with an empty scheme and host (Go treats it as an opaque or
relative URL), which the safety gate then rejects. -/

/-- The scheme/host projection of a parsed URL. -/
structure GoURL where
  scheme : String := ""
  host : String := ""
deriving DecidableEq, Repr

/-- Split at the first occurrence of `sep` (exclusive). -/
def splitFirst (s sep : String) : Option (String × String) :=
  match findSub s.data sep.data with
  | none => none
  | some i => some (⟨s.data.take i⟩, ⟨s.data.drop (i + sep.data.length)⟩)

/-- Valid scheme per `net/url`: a letter followed by letters, digits,
`+`, `-`, `.`. -/
def validScheme (s : String) : Bool :=
  match s.data with
  | [] => false
  | c :: rest =>
    c.isAlpha && rest.all (fun c => c.isAlpha || c.isDigit ||
      c == '+' || c == '-' || c == '.')

/-- The authority section: everything after `://` up to `/`, `?` or `#`,
with any userinfo (`...@`) removed. -/
def authorityHost (rest : String) : String :=
  let auth := rest.data.takeWhile (fun c => c ≠ '/' ∧ c ≠ '?' ∧ c ≠ '#')
  let afterAt := (auth.reverse.takeWhile (· ≠ '@')).reverse
  ⟨afterAt⟩

/-- Go `validOptionalPort` on the `[colon:]` tail: `:` followed by digits
(possibly none). -/
def validPortTail (s : List Char) : Bool :=
  match s with
  | ':' :: digits => digits.all (·.isDigit)
  | _ => false

/-- Go `(*URL).Hostname()`: strip a valid `:port` suffix, then brackets. -/
def hostnameOf (hostport : String) : String :=
  let l := hostport.data
  let host :=
    match l.reverse.findIdx? (fun c => c == ':') with
    | none => l
    | some j =>
      let i := l.length - 1 - j
      if validPortTail (l.drop i) then l.take i else l
  let host :=
    if host.headD ' ' = '[' ∧ host.getLastD ' ' = ']' then
      (host.drop 1).dropLast
    else host
  ⟨host⟩

/-- Model of `net/url.Parse` as observed through `u.Scheme` and
`u.Host`. -/
def parseURL (raw : String) : Option GoURL :=
  if raw.data.any (fun c => c.toNat < 0x20 ∨ c.toNat = 0x7f) then none
  else
    match splitFirst raw "://" with
    | none => some {}
    | some sr =>
      if validScheme sr.1 then
        let host := authorityHost sr.2
        if host.data.any (· = ' ') then none
        else some { scheme := strLower sr.1, host := host }
      else some {}

/-! ## urlcheck: `IsSafeURL` -/

/-- The metadata-endpoint blocklist of `IsSafeURL`. -/
def blockedHosts : List String :=
  ["169.254.169.254", "metadata.google.internal", "100.100.100.200"]

/-- A DNS oracle standing for `net.LookupHost` (+ `net.ParseIP` of each
returned address): `none` models resolution failure. -/
abbrev Resolver := String → Option (List IP)

/-- `urlcheck.IsSafeURL`, parametrised by the DNS oracle. -/
def IsSafeURL (resolve : Resolver) (rawURL : String) : Bool :=
  match parseURL rawURL with
  | none => false
  | some u =>
    if u.scheme ≠ "http" ∧ u.scheme ≠ "https" then false
    else
      let host := hostnameOf u.host
      if host = "" then false
      else if blockedHosts.any (fun b => decide (host = b)) then false
      else
        match parseIP host with
        | some ip => !isPrivateIP ip
        | none =>
          match resolve host with
          | none => true
          | some addrs => !addrs.any isPrivateIP

/-- An address the specification forbids: loopback, private
(RFC 1918 / ULA), link-local, or unspecified.  (Spec wording.) -/
def SpecBadAddress (ip : IP) : Prop :=
  ip.isLoopback = true ∨ ip.isPrivate = true ∨
  (ip.isLinkLocalUnicast = true ∨ ip.isLinkLocalMulticast = true) ∨
  ip.isUnspecified = true

/-- Modelled from the spec: the acceptance condition of the URL-safety
gate, written from the spec's words (section 4.1), for comparison with
`IsSafeURL`. -/
def SpecSafeURL (resolve : Resolver) (rawURL : String) : Prop :=
  ∃ u, parseURL rawURL = some u ∧
    (u.scheme = "http" ∨ u.scheme = "https") ∧
    hostnameOf u.host ≠ "" ∧
    hostnameOf u.host ∉ blockedHosts ∧
    (match parseIP (hostnameOf u.host) with
     | some ip => ¬ SpecBadAddress ip
     | none =>
       ∀ addrs, resolve (hostnameOf u.host) = some addrs →
         ∀ a ∈ addrs, ¬ SpecBadAddress a)

/-! ## federation: `ProbeURL` -/

/-- What the probe's HTTP round trip produced: a response (status +
`Content-Type` header) or a transport error string. -/
inductive ProbeOutcome where
  | response (statusCode : Nat) (contentType : String)
  | netError (msg : String)
deriving DecidableEq, Repr

/-- The host-fatal error classification of `ProbeURL`. -/
def isHostFatalErr (errStr : String) : Bool :=
  strContains errStr "deadline exceeded" ||
  strContains errStr "connection refused" ||
  strContains errStr "no such host" ||
  strContains errStr "no route to host" ||
  strContains errStr "network is unreachable" ||
  strContains errStr "tls:"

/-- `federation.ProbeURL`, parametrised by the DNS oracle (for the safety
gate) and the HTTP outcome: `(true, "")` on a non-HTML 200, `(false,
host)` on a host-fatal transport error, `(false, "")` otherwise. -/
def ProbeURL (resolve : Resolver) (outcome : ProbeOutcome) (u : String) :
    Bool × String :=
  if ¬ IsSafeURL resolve u then (false, "")
  else
    let host :=
      match parseURL u with
      | some p => hostnameOf p.host
      | none => ""
    match outcome with
    | .netError e => if isHostFatalErr e then (false, host) else (false, "")
    | .response status ct =>
      if status ≠ 200 then (false, "")
      else if strContains ct "text/html" then (false, "")
      else (true, "")

/-! ## Lemmas about the helper operations -/

theorem mem_AppendUnique (s : List String) (v x : String) :
    x ∈ AppendUnique s v ↔ x ∈ s ∨ x = v := by
  unfold AppendUnique
  split
  · rename_i hv
    constructor
    · exact fun h => Or.inl h
    · rintro (h | rfl) <;> assumption
  · simp

theorem nodup_AppendUnique (s : List String) (v : String) (h : s.Nodup) :
    (AppendUnique s v).Nodup := by
  unfold AppendUnique
  split
  · exact h
  · rename_i hv
    simpa [List.nodup_append] using ⟨h, hv⟩

theorem mapLookup_nil {α : Type} (k : String) :
    mapLookup ([] : List (String × α)) k = none := rfl

theorem mapLookup_cons {α : Type} (p : String × α) (m : List (String × α))
    (k : String) :
    mapLookup (p :: m) k = if p.1 = k then some p.2 else mapLookup m k := by
  unfold mapLookup
  rcases h : decide (p.1 = k) with _ | _
  · simp_all [List.find?]
  · simp_all [List.find?]

theorem mapLookup_isSome_iff {α : Type} (m : List (String × α)) (k : String) :
    (mapLookup m k).isSome = true ↔ k ∈ m.map Prod.fst := by
  induction m with
  | nil => simp [mapLookup_nil]
  | cons p rest ih =>
    rw [mapLookup_cons]
    by_cases h : p.1 = k
    · simp [h]
    · simp [h, ih, Ne.symm h]

theorem mapLookup_eq_none_iff {α : Type} (m : List (String × α)) (k : String) :
    mapLookup m k = none ↔ k ∉ m.map Prod.fst := by
  rw [← mapLookup_isSome_iff]
  cases mapLookup m k <;> simp

theorem mapLookup_self_of_nodup {α : Type} :
    ∀ (m : List (String × α)), (m.map Prod.fst).Nodup →
      ∀ p ∈ m, mapLookup m p.1 = some p.2
  | [], _, p, hp => absurd hp (List.not_mem_nil p)
  | q :: rest, hnd, p, hp => by
    rw [mapLookup_cons]
    rcases List.mem_cons.mp hp with rfl | hp'
    · simp
    · have hq : q.1 ≠ p.1 := by
        intro he
        exact (List.nodup_cons.mp hnd).1 (he ▸ List.mem_map_of_mem Prod.fst hp')
      simp only [hq, if_false]
      exact mapLookup_self_of_nodup rest (List.nodup_cons.mp hnd).2 p hp'

theorem mapLookup_map_ite_self {α : Type} (m : List (String × α)) (k : String)
    (v : α) :
    mapLookup (m.map (fun p => if p.1 = k then (k, v) else p)) k =
      if (m.any fun p => decide (p.1 = k)) = true then some v else none := by
  induction m with
  | nil => simp [mapLookup_nil]
  | cons q rest ih =>
    by_cases hq : q.1 = k
    · simp [mapLookup_cons, hq, List.any_cons]
    · have hd : decide (q.1 = k) = false := by simp [hq]
      rw [List.map_cons, mapLookup_cons, List.any_cons, hd]
      simp only [hq, if_false, Bool.false_or]
      exact ih

theorem mapLookup_map_ite_ne {α : Type} (m : List (String × α)) (k k' : String)
    (v : α) (h : k' ≠ k) :
    mapLookup (m.map (fun p => if p.1 = k then (k, v) else p)) k' =
      mapLookup m k' := by
  induction m with
  | nil => rfl
  | cons q rest ih =>
    by_cases hq : q.1 = k
    · have h1 : ¬ (k = k') := fun he => h he.symm
      have h2 : ¬ (q.1 = k') := fun he => h (he ▸ hq)
      rw [List.map_cons, if_pos hq, mapLookup_cons, mapLookup_cons]
      simp only [h1, h2, if_false]
      exact ih
    · rw [List.map_cons, if_neg hq, mapLookup_cons, mapLookup_cons]
      by_cases hq' : q.1 = k'
      · simp [hq']
      · simp only [hq', if_false]
        exact ih

theorem mapLookup_append_single_self {α : Type} (m : List (String × α))
    (k : String) (v : α) (h : k ∉ m.map Prod.fst) :
    mapLookup (m ++ [(k, v)]) k = some v := by
  induction m with
  | nil => simp [mapLookup_cons]
  | cons q rest ih =>
    simp only [List.map_cons, List.mem_cons] at h
    push_neg at h
    have hq : ¬ (q.1 = k) := fun he => h.1 he.symm
    simp only [List.cons_append, mapLookup_cons, hq, if_false]
    exact ih h.2

theorem mapLookup_append_single_ne {α : Type} (m : List (String × α))
    (k k' : String) (v : α) (h : k' ≠ k) :
    mapLookup (m ++ [(k, v)]) k' = mapLookup m k' := by
  induction m with
  | nil =>
    have h1 : ¬ (k = k') := fun he => h he.symm
    simp [mapLookup_cons, mapLookup_nil, h1]
  | cons q rest ih =>
    by_cases hq : q.1 = k'
    · simp [mapLookup_cons, hq]
    · simp [mapLookup_cons, hq, ih]

theorem any_key_iff {α : Type} (m : List (String × α)) (k : String) :
    (m.any fun p => decide (p.1 = k)) = true ↔ k ∈ m.map Prod.fst := by
  rw [List.any_eq_true]
  constructor
  · rintro ⟨p, hp, hpk⟩
    rw [decide_eq_true_iff] at hpk
    exact hpk ▸ List.mem_map_of_mem Prod.fst hp
  · intro hm
    rw [List.mem_map] at hm
    obtain ⟨p, hp, hpk⟩ := hm
    exact ⟨p, hp, by simp [hpk]⟩

theorem mapLookup_mapInsert_self {α : Type} (m : List (String × α)) (k : String)
    (v : α) : mapLookup (mapInsert m k v) k = some v := by
  unfold mapInsert
  split
  · rename_i hany
    rw [mapLookup_map_ite_self, if_pos hany]
  · rename_i hany
    refine mapLookup_append_single_self m k v ?_
    intro hk
    exact hany ((any_key_iff m k).mpr hk)

theorem mapLookup_mapInsert_ne {α : Type} (m : List (String × α)) (k k' : String)
    (v : α) (h : k' ≠ k) : mapLookup (mapInsert m k v) k' = mapLookup m k' := by
  unfold mapInsert
  split
  · exact mapLookup_map_ite_ne m k k' v h
  · exact mapLookup_append_single_ne m k k' v h

theorem keys_map_ite {α : Type} (m : List (String × α)) (k : String) (v : α) :
    (m.map (fun p => if p.1 = k then (k, v) else p)).map Prod.fst =
      m.map Prod.fst := by
  rw [List.map_map]
  apply List.map_congr_left
  intro p _
  by_cases h : p.1 = k <;> simp [h]

theorem keys_mapInsert_mem {α : Type} (m : List (String × α)) (k : String)
    (v : α) (x : String) :
    x ∈ (mapInsert m k v).map Prod.fst ↔ x ∈ m.map Prod.fst ∨ x = k := by
  unfold mapInsert
  split
  · rename_i hany
    rw [keys_map_ite]
    have hk : k ∈ m.map Prod.fst := (any_key_iff m k).mp hany
    constructor
    · exact fun h => Or.inl h
    · rintro (h | rfl) <;> assumption
  · simp [or_comm]

theorem keys_mapInsert_nodup {α : Type} (m : List (String × α)) (k : String)
    (v : α) (h : (m.map Prod.fst).Nodup) :
    ((mapInsert m k v).map Prod.fst).Nodup := by
  unfold mapInsert
  split
  · rw [keys_map_ite]
    exact h
  · rename_i hany
    have hk : k ∉ m.map Prod.fst := by
      intro hm
      exact hany ((any_key_iff m k).mpr hm)
    rw [List.map_append, List.nodup_append]
    refine ⟨h, by simp, ?_⟩
    intro a ha hb
    simp only [List.map_cons, List.map_nil, List.mem_singleton] at hb
    subst hb
    exact hk ha

theorem keys_mapAdjust {α : Type} (m : List (String × α)) (k : String)
    (f : α → α) : (mapAdjust m k f).map Prod.fst = m.map Prod.fst := by
  unfold mapAdjust
  rw [List.map_map]
  apply List.map_congr_left
  intro p _
  by_cases h : p.1 = k <;> simp [h]

theorem mapLookup_mapAdjust {α : Type} (m : List (String × α)) (k k' : String)
    (f : α → α) :
    mapLookup (mapAdjust m k f) k' =
      if k' = k then (mapLookup m k').map f else mapLookup m k' := by
  induction m with
  | nil => by_cases hk : k' = k <;> simp [mapAdjust, mapLookup_nil, hk]
  | cons q rest ih =>
    unfold mapAdjust at ih ⊢
    rw [List.map_cons]
    by_cases hq : q.1 = k
    · rw [if_pos hq]
      by_cases hq' : q.1 = k'
      · have hk : k' = k := hq'.symm.trans hq
        simp [mapLookup_cons, hq', hk]
      · have hax : mapLookup (q :: rest) k' = mapLookup rest k' := by
          rw [mapLookup_cons, if_neg hq']
        rw [hax, mapLookup_cons]
        simp only [hq', if_false]
        exact ih
    · rw [if_neg hq]
      by_cases hq' : q.1 = k'
      · have hk : ¬ (k' = k) := fun he => hq (hq'.trans he)
        simp [mapLookup_cons, hq', hk]
      · have hax : mapLookup (q :: rest) k' = mapLookup rest k' := by
          rw [mapLookup_cons, if_neg hq']
        rw [hax, mapLookup_cons]
        simp only [hq', if_false]
        exact ih

theorem histCount_mapInsert (m : List (String × Nat)) (k c : String)
    (v : Nat) :
    histCount (mapInsert m k v) c = if c = k then v else histCount m c := by
  unfold histCount
  by_cases hc : c = k
  · subst hc
    rw [mapLookup_mapInsert_self, if_pos rfl]
    rfl
  · rw [mapLookup_mapInsert_ne m k c v hc, if_neg hc]

theorem histCount_bump (m : List (String × Nat)) (k c : String) :
    histCount (bump m k) c = histCount m c + (if c = k then 1 else 0) := by
  cases hm : mapLookup m k with
  | none =>
    have hb : bump m k = mapInsert m k 1 := by unfold bump; rw [hm]
    rw [hb, histCount_mapInsert]
    by_cases hc : c = k
    · subst hc
      simp [histCount, hm]
    · simp [hc]
  | some n =>
    have hb : bump m k = mapInsert m k (n + 1) := by unfold bump; rw [hm]
    rw [hb, histCount_mapInsert]
    by_cases hc : c = k
    · subst hc
      simp [histCount, hm]
    · simp [hc]

theorem histCount_foldl_bump (l : List String) (m : List (String × Nat))
    (c : String) :
    histCount (l.foldl bump m) c = histCount m c + l.count c := by
  induction l generalizing m with
  | nil => simp
  | cons x rest ih =>
    rw [List.foldl_cons, ih, histCount_bump, List.count_cons]
    split_ifs <;> simp_all <;> omega

/-! ## C1: gateway id suffixing in the federation merge -/

theorem gwSuffixNode_gateway (key : String) (n : RawNode) :
    (gwSuffixNode key n).gateway = n.gateway := by
  unfold gwSuffixNode
  split <;> rfl

theorem gwRefNode_nodeID (ren : String → Option String) (n : RawNode) :
    (gwRefNode ren n).nodeID = n.nodeID := by
  unfold gwRefNode
  cases ren n.gateway <;> rfl

theorem rewriteGateways_nodes_length (key : String) (d : MeshviewerData) :
    (rewriteGateways key d).nodes.length = d.nodes.length := by
  simp [rewriteGateways]

theorem rewriteGateways_links_length (key : String) (d : MeshviewerData) :
    (rewriteGateways key d).links.length = d.links.length := by
  simp [rewriteGateways]

/-- C1: in the per-source merge step of `RefreshAllSources`
(`rewriteGateways`), every gateway node with a non-empty id has its id
rewritten to `id ++ "_" ++ key` (key = the owning community key); every
node whose `gateway` back-reference equals that original id and every link
whose source or target equals that original id is rewritten to the
suffixed id within the same source's data; nodes that are not gateways
keep their ids unchanged. -/
theorem c1_refreshAllSources_gateway_suffix (key : String) (d : MeshviewerData)
    (i : Nat) (hi : i < d.nodes.length) :
    (d.nodes[i].isGateway = true ∧ d.nodes[i].nodeID ≠ "" →
      ((rewriteGateways key d).nodes.get
          ⟨i, by rwa [rewriteGateways_nodes_length]⟩).nodeID
        = d.nodes[i].nodeID ++ "_" ++ key ∧
      (∀ j, ∀ hj : j < d.nodes.length,
        d.nodes[j].gateway = d.nodes[i].nodeID →
        ((rewriteGateways key d).nodes.get
            ⟨j, by rwa [rewriteGateways_nodes_length]⟩).gateway
          = d.nodes[i].nodeID ++ "_" ++ key) ∧
      (∀ j, ∀ hj : j < d.links.length,
        (d.links[j].source = d.nodes[i].nodeID →
          ((rewriteGateways key d).links.get
              ⟨j, by rwa [rewriteGateways_links_length]⟩).source
            = d.nodes[i].nodeID ++ "_" ++ key) ∧
        (d.links[j].target = d.nodes[i].nodeID →
          ((rewriteGateways key d).links.get
              ⟨j, by rwa [rewriteGateways_links_length]⟩).target
            = d.nodes[i].nodeID ++ "_" ++ key))) ∧
    (d.nodes[i].isGateway = false →
      ((rewriteGateways key d).nodes.get
          ⟨i, by rwa [rewriteGateways_nodes_length]⟩).nodeID
        = d.nodes[i].nodeID) := by
  constructor
  · rintro ⟨hgw, hid⟩
    have hren : gwRenameLookup key d.nodes (d.nodes[i].nodeID)
        = some (d.nodes[i].nodeID ++ "_" ++ key) := by
      unfold gwRenameLookup
      rw [if_pos]
      exact ⟨hid, d.nodes[i], List.getElem_mem hi, hgw, rfl⟩
    refine ⟨?_, ?_, ?_⟩
    · simp only [rewriteGateways, List.get_eq_getElem, List.getElem_map]
      rw [gwRefNode_nodeID]
      unfold gwSuffixNode
      rw [if_pos ⟨hgw, hid⟩]
    · intro j hj hgwref
      simp only [rewriteGateways, List.get_eq_getElem, List.getElem_map]
      unfold gwRefNode
      rw [gwSuffixNode_gateway, hgwref, hren]
    · intro j hj
      constructor
      · intro hsrc
        simp only [rewriteGateways, List.get_eq_getElem, List.getElem_map]
        unfold gwLink
        rw [hsrc, hren]
        rfl
      · intro htgt
        simp only [rewriteGateways, List.get_eq_getElem, List.getElem_map]
        unfold gwLink
        rw [htgt, hren]
        rfl
  · intro hngw
    simp only [rewriteGateways, List.get_eq_getElem, List.getElem_map]
    rw [gwRefNode_nodeID]
    unfold gwSuffixNode
    rw [if_neg]
    rintro ⟨hg, _⟩
    rw [hngw] at hg
    cases hg

/-- Witness data for C1: one gateway and one client referencing it. -/
def dC1 : MeshviewerData :=
  { timestamp := ""
    nodes := [{ nodeID := "11:22:33:44:55:66", isGateway := true },
              { nodeID := "c-x", gateway := "11:22:33:44:55:66" }]
    links := [{ source := "c-x", target := "11:22:33:44:55:66" }] }

theorem c1_refreshAllSources_gateway_suffix_witness :
    ((rewriteGateways "x" dC1).nodes.get
        ⟨0, by rw [rewriteGateways_nodes_length]; decide⟩).nodeID
      = "11:22:33:44:55:66_x" :=
  (((c1_refreshAllSources_gateway_suffix "x" dC1 0 (by decide)).1
      ⟨by decide, by decide⟩).1).trans (by decide)

/-! ## C7: probe demands a non-HTML 200 -/

/-- C7: once the probe's HTTP round trip completes for a safe URL, a 200
response whose `Content-Type` contains `text/html` fails the probe, a 200
response with a non-HTML `Content-Type` succeeds, and a non-200 response
always fails. -/
theorem c7_probe_rejects_html (resolve : Resolver) (u : String) (status : Nat)
    (ct : String) (hsafe : IsSafeURL resolve u = true) :
    (status = 200 ∧ strContains ct "text/html" = true →
      (ProbeURL resolve (.response status ct) u).1 = false) ∧
    (status = 200 ∧ strContains ct "text/html" = false →
      (ProbeURL resolve (.response status ct) u).1 = true) ∧
    (status ≠ 200 → (ProbeURL resolve (.response status ct) u).1 = false) := by
  refine ⟨?_, ?_, ?_⟩
  · rintro ⟨rfl, hct⟩
    simp [ProbeURL, hsafe, hct]
  · rintro ⟨rfl, hct⟩
    simp [ProbeURL, hsafe, hct]
  · intro hst
    simp [ProbeURL, hsafe, hst]

theorem c7_probe_rejects_html_witness :
    (ProbeURL (fun _ => none) (.response 200 "application/json")
        "http://example.org/meshviewer.json").1 = true ∧
    (ProbeURL (fun _ => none) (.response 200 "text/html; charset=utf-8")
        "http://example.org/meshviewer.json").1 = false ∧
    (ProbeURL (fun _ => none) (.response 404 "application/json")
        "http://example.org/meshviewer.json").1 = false :=
  ⟨(c7_probe_rejects_html (fun _ => none) "http://example.org/meshviewer.json"
      200 "application/json" (by decide)).2.1 ⟨rfl, by decide⟩,
   (c7_probe_rejects_html (fun _ => none) "http://example.org/meshviewer.json"
      200 "text/html; charset=utf-8" (by decide)).1 ⟨rfl, by decide⟩,
   (c7_probe_rejects_html (fun _ => none) "http://example.org/meshviewer.json"
      404 "application/json" (by decide)).2.2 (by decide)⟩

/-! ## C8: metrics handler rejects non-hex-colon-dash node ids -/

/-- C8: in federation mode, when the Grafana metadata resolved for the
node carries a base URL and a datasource id, a resolved query node id
(gateway community suffix stripped) containing any character outside
`[0-9a-fA-F:-]` makes the handler answer 400 bad-request; no
upstream-query outcome (`proceed`) is produced. -/
theorem c8_metrics_invalid_id_bad_request (ncm : NodeCommMap)
    (cache : List (String × GrafanaInfo)) (cfgGrafanaURL path : String)
    (hconf : (GrafanaInfoForNode ncm cache
        ⟨(splitOnCh '/' (trimPre path "/api/metrics/").data).headD []⟩).1.baseURL ≠ ""
      ∧ (GrafanaInfoForNode ncm cache
        ⟨(splitOnCh '/' (trimPre path "/api/metrics/").data).headD []⟩).1.datasourceID
          ≠ 0)
    (hbad : ((GrafanaInfoForNode ncm cache
        ⟨(splitOnCh '/' (trimPre path "/api/metrics/").data).headD []⟩).2).data.any
        (fun c => !isValidIDChar c) = true) :
    handleNodeMetrics (some (ncm, cache)) cfgGrafanaURL path
      = .badRequest "invalid node_id" := by
  unfold handleNodeMetrics
  by_cases h0 : (⟨(splitOnCh '/' (trimPre path "/api/metrics/").data).headD []⟩ : String) = ""
  · exfalso
    rw [h0] at hbad
    have htriv : ∀ suf : String, trimSuf "" suf = "" := by
      intro suf
      unfold trimSuf
      split
      · show (⟨("" : String).data.take _⟩ : String) = ""
        rw [show ("" : String).data = [] from rfl, List.take_nil]
      · rfl
    have horig : (GrafanaInfoForNode ncm cache "").2 = "" := by
      show findOriginalID ((mapLookup ncm "").getD []) "" = ""
      unfold findOriginalID
      cases ((mapLookup ncm "").getD []).find?
          (fun ck => ("_" ++ ck).data.isSuffixOf ("" : String).data) with
      | none => rfl
      | some ck => exact htriv ("_" ++ ck)
    rw [horig] at hbad
    simp at hbad
  · rw [if_neg h0]
    have hnotfail : ¬ ((GrafanaInfoForNode ncm cache
        ⟨(splitOnCh '/' (trimPre path "/api/metrics/").data).headD []⟩).1.baseURL = ""
      ∨ (GrafanaInfoForNode ncm cache
        ⟨(splitOnCh '/' (trimPre path "/api/metrics/").data).headD []⟩).1.datasourceID
          = 0) := by
      rintro (h | h)
      · exact hconf.1 h
      · exact hconf.2 h
    dsimp only
    rw [if_neg hnotfail]
    unfold sanitizeNodeID
    rw [if_pos hbad]

theorem c8_metrics_invalid_id_bad_request_witness :
    handleNodeMetrics
      (some ([("aa;bb", ["mycomm"])],
             [("mycomm", { baseURL := "https://g", datasourceID := 12 })]))
      "" "/api/metrics/aa;bb" = .badRequest "invalid node_id" :=
  c8_metrics_invalid_id_bad_request _ _ "" "/api/metrics/aa;bb"
    ⟨by decide, by decide⟩ (by decide)

/-! ## C2: the URL-safety gate matches its specification -/

theorem specBadAddress_iff (ip : IP) :
    SpecBadAddress ip ↔ isPrivateIP ip = true := by
  unfold SpecBadAddress isPrivateIP
  simp [Bool.or_eq_true, or_assoc]

/-- C2: `IsSafeURL` accepts exactly the URLs the specification accepts
(parse + http/https scheme + non-empty non-blocklisted hostname + no
loopback/private/link-local/unspecified literal or resolved address,
accepting on DNS failure); in particular the four example URLs are
rejected for every DNS oracle. -/
theorem c2_url_safety_gate :
    (∀ (resolve : Resolver) (url : String),
      IsSafeURL resolve url = true ↔ SpecSafeURL resolve url) ∧
    (∀ resolve : Resolver,
      IsSafeURL resolve "http://169.254.169.254/latest/meta-data/" = false ∧
      IsSafeURL resolve "http://127.0.0.1/api/stats" = false ∧
      IsSafeURL resolve "http://10.0.0.1/nodes.json" = false ∧
      IsSafeURL resolve "ftp://example/meshviewer.json" = false) := by
  constructor
  · intro resolve url
    unfold IsSafeURL SpecSafeURL
    cases hp : parseURL url with
    | none => simp
    | some u =>
      simp only [Option.some.injEq]
      rw [show (∃ u', u = u' ∧ ((u'.scheme = "http" ∨ u'.scheme = "https") ∧
          hostnameOf u'.host ≠ "" ∧ hostnameOf u'.host ∉ blockedHosts ∧
          (match parseIP (hostnameOf u'.host) with
           | some ip => ¬ SpecBadAddress ip
           | none =>
             ∀ addrs, resolve (hostnameOf u'.host) = some addrs →
               ∀ a ∈ addrs, ¬ SpecBadAddress a))) ↔
          ((u.scheme = "http" ∨ u.scheme = "https") ∧
          hostnameOf u.host ≠ "" ∧ hostnameOf u.host ∉ blockedHosts ∧
          (match parseIP (hostnameOf u.host) with
           | some ip => ¬ SpecBadAddress ip
           | none =>
             ∀ addrs, resolve (hostnameOf u.host) = some addrs →
               ∀ a ∈ addrs, ¬ SpecBadAddress a)) from by
        constructor
        · rintro ⟨u', rfl, h⟩; exact h
        · intro h; exact ⟨u, rfl, h⟩]
      by_cases h1 : u.scheme ≠ "http" ∧ u.scheme ≠ "https"
      · rw [if_pos h1]
        simp only [Bool.false_eq_true, false_iff]
        rintro ⟨hs | hs, _⟩
        · exact h1.1 hs
        · exact h1.2 hs
      · rw [if_neg h1]
        rw [not_and_or, not_not, not_not] at h1
        by_cases h2 : hostnameOf u.host = ""
        · rw [if_pos h2]
          simp only [Bool.false_eq_true, false_iff]
          rintro ⟨_, hne, _⟩
          exact hne h2
        · rw [if_neg h2]
          by_cases h3 : (blockedHosts.any
              (fun b => decide (hostnameOf u.host = b))) = true
          · rw [if_pos h3]
            simp only [Bool.false_eq_true, false_iff]
            rintro ⟨_, _, hnb, _⟩
            apply hnb
            rw [List.any_eq_true] at h3
            obtain ⟨b, hb, hbe⟩ := h3
            rw [decide_eq_true_iff] at hbe
            exact hbe ▸ hb
          · rw [if_neg (by simpa using h3)]
            have hnb : hostnameOf u.host ∉ blockedHosts := by
              intro hm
              exact h3 (List.any_eq_true.mpr ⟨_, hm, by simp⟩)
            cases hip : parseIP (hostnameOf u.host) with
            | some ip =>
              simp only [specBadAddress_iff]
              constructor
              · intro h
                refine ⟨h1, h2, hnb, ?_⟩
                simp only [Bool.not_eq_true'] at h
                simp [h]
              · rintro ⟨_, _, _, h⟩
                simp only [Bool.not_eq_true] at h ⊢
                simpa using h
            | none =>
              cases hr : resolve (hostnameOf u.host) with
              | none =>
                simp only [true_iff]
                refine ⟨h1, h2, hnb, ?_⟩
                intro addrs haddrs
                cases haddrs
              | some addrs =>
                dsimp only
                constructor
                · intro h
                  refine ⟨h1, h2, hnb, ?_⟩
                  rintro addrs' haddrs' a ha
                  cases haddrs'
                  rw [specBadAddress_iff]
                  rw [Bool.not_eq_true', List.any_eq_false] at h
                  simpa using h a ha
                · rintro ⟨_, _, _, h⟩
                  rw [Bool.not_eq_true', List.any_eq_false]
                  intro a ha
                  have hgood := h addrs rfl a ha
                  rw [specBadAddress_iff] at hgood
                  simpa using hgood
  · intro resolve
    exact ⟨rfl, rfl, rfl, rfl⟩

/-! ## Snapshot-builder lemmas -/

/-- Forget the (derived) neighbour list of a node. -/
def stripN (n : Node) : Node := { n with neighbours := [] }

theorem ProcessData_nodes (hav : HaversineFn)
    (dn : List (String × String)) (raw : MeshviewerData) :
    (ProcessData hav dn raw).nodes
      = (processLinks hav (buildNodeMap dn raw.nodes) raw.links).1 := rfl

theorem ProcessData_nodeList (hav : HaversineFn)
    (dn : List (String × String)) (raw : MeshviewerData) :
    (ProcessData hav dn raw).nodeList
      = (buildNodeList dn
          (processLinks hav (buildNodeMap dn raw.nodes) raw.links).1
          raw.nodes).mergeSort nodeLe := rfl

theorem ProcessData_links (hav : HaversineFn)
    (dn : List (String × String)) (raw : MeshviewerData) :
    (ProcessData hav dn raw).links
      = (processLinks hav (buildNodeMap dn raw.nodes) raw.links).2 := rfl

theorem ProcessData_stats (hav : HaversineFn)
    (dn : List (String × String)) (raw : MeshviewerData) :
    (ProcessData hav dn raw).stats = statsOfRaw dn raw := rfl

theorem buildNodeMap_lookup (dn : List (String × String))
    (raws : List RawNode) (a : String) :
    mapLookup (buildNodeMap dn raws) a =
      ((raws.filter (fun rn => decide (rn.nodeID = a))).getLast?).map
        (mkNode dn) := by
  unfold buildNodeMap
  induction raws using List.reverseRecOn with
  | nil => simp [mapLookup_nil]
  | append_singleton rest rn ih =>
    rw [List.foldl_append, List.foldl_cons, List.foldl_nil, List.filter_append]
    by_cases h : rn.nodeID = a
    · have hf : List.filter (fun rn => decide (rn.nodeID = a)) [rn] = [rn] := by
        simp [h]
      rw [hf, List.getLast?_concat, h, mapLookup_mapInsert_self]
      rfl
    · have hf : List.filter (fun rn => decide (rn.nodeID = a)) [rn] = [] := by
        simp [h]
      rw [hf, List.append_nil,
        mapLookup_mapInsert_ne _ _ _ _ (fun he => h he.symm)]
      exact ih

theorem buildNodeMap_keys_nodup (dn : List (String × String))
    (raws : List RawNode) :
    ((buildNodeMap dn raws).map Prod.fst).Nodup := by
  unfold buildNodeMap
  have hgen : ∀ (rs : List RawNode) (m0 : List (String × Node)),
      (m0.map Prod.fst).Nodup →
      ((rs.foldl (fun m rn => mapInsert m rn.nodeID (mkNode dn rn)) m0).map
        Prod.fst).Nodup := by
    intro rs
    induction rs with
    | nil => intro m0 h; exact h
    | cons rn rest ih =>
      intro m0 h
      exact ih _ (keys_mapInsert_nodup m0 rn.nodeID (mkNode dn rn) h)
  exact hgen raws [] (by simp)

theorem buildNodeMap_keys_mem (dn : List (String × String))
    (raws : List RawNode) (a : String) :
    a ∈ (buildNodeMap dn raws).map Prod.fst ↔
      a ∈ raws.map RawNode.nodeID := by
  rw [← mapLookup_isSome_iff, buildNodeMap_lookup]
  rw [show ∀ o : Option RawNode, (o.map (mkNode dn)).isSome = o.isSome from
    fun o => by cases o <;> rfl]
  rw [List.getLast?_isSome]
  constructor
  · intro h
    rcases List.exists_mem_of_ne_nil _ h with ⟨rn, hrn⟩
    rw [List.mem_filter] at hrn
    have := hrn.2
    rw [decide_eq_true_iff] at this
    exact this ▸ List.mem_map_of_mem RawNode.nodeID hrn.1
  · intro h
    rw [List.mem_map] at h
    obtain ⟨rn, hrn, hid⟩ := h
    intro hnil
    have : rn ∈ List.filter (fun rn => decide (rn.nodeID = a)) raws :=
      List.mem_filter.mpr ⟨hrn, by simp [hid]⟩
    rw [hnil] at this
    cases this

/-- Effect of one link iteration on the node map, seen through lookups:
only the `neighbours` of the (present) endpoints change. -/
theorem processLink_lookup (hav : HaversineFn) (m : List (String × Node))
    (rl : RawLink) (a : String) :
    mapLookup (processLink hav m rl).1 a =
      (mapLookup m a).map (fun nd =>
        let nd1 := if a = rl.source then
          { nd with neighbours := AppendUnique nd.neighbours rl.target }
          else nd
        if a = rl.target then
          { nd1 with neighbours := AppendUnique nd1.neighbours rl.source }
        else nd1) := by
  unfold processLink
  dsimp only
  have step1 : mapLookup
      (if (mapLookup m rl.source).isSome then
        mapAdjust m rl.source
          (fun n => { n with neighbours := AppendUnique n.neighbours rl.target })
      else m) a =
      (mapLookup m a).map (fun nd =>
        if a = rl.source then
          { nd with neighbours := AppendUnique nd.neighbours rl.target }
        else nd) := by
    split
    · rw [mapLookup_mapAdjust]
      by_cases ha : a = rl.source
      · rw [if_pos ha]
        cases mapLookup m a <;> simp [ha]
      · rw [if_neg ha]
        cases mapLookup m a <;> simp [ha]
    · rename_i hnone
      have hnone2 : mapLookup m rl.source = none := by
        cases h : mapLookup m rl.source
        · rfl
        · rw [h] at hnone; simp at hnone
      by_cases ha : a = rl.source
      · rw [ha, hnone2]
        rfl
      · cases mapLookup m a <;> simp [ha]
  set m1 := (if (mapLookup m rl.source).isSome then
      mapAdjust m rl.source
        (fun n => { n with neighbours := AppendUnique n.neighbours rl.target })
    else m) with hm1
  have step2 : mapLookup
      (if (mapLookup m1 rl.target).isSome then
        mapAdjust m1 rl.target
          (fun n => { n with neighbours := AppendUnique n.neighbours rl.source })
      else m1) a =
      (mapLookup m1 a).map (fun nd =>
        if a = rl.target then
          { nd with neighbours := AppendUnique nd.neighbours rl.source }
        else nd) := by
    split
    · rw [mapLookup_mapAdjust]
      by_cases ha : a = rl.target
      · rw [if_pos ha]
        cases mapLookup m1 a <;> simp [ha]
      · rw [if_neg ha]
        cases mapLookup m1 a <;> simp [ha]
    · rename_i hnone
      have hnone2 : mapLookup m1 rl.target = none := by
        cases h : mapLookup m1 rl.target
        · rfl
        · rw [h] at hnone; simp at hnone
      by_cases ha : a = rl.target
      · rw [ha, hnone2]
        rfl
      · cases mapLookup m1 a <;> simp [ha]
  rw [step2, step1]
  cases mapLookup m a <;> simp

/-- The per-link neighbour update applied to a node value. -/
def linkUpdate (rl : RawLink) (a : String) (nd : Node) : Node :=
  let nd1 := if a = rl.source then
    { nd with neighbours := AppendUnique nd.neighbours rl.target }
    else nd
  if a = rl.target then
    { nd1 with neighbours := AppendUnique nd1.neighbours rl.source }
  else nd1

theorem processLink_lookup_update (hav : HaversineFn)
    (m : List (String × Node)) (rl : RawLink) (a : String) :
    mapLookup (processLink hav m rl).1 a =
      (mapLookup m a).map (linkUpdate rl a) :=
  processLink_lookup hav m rl a

theorem linkUpdate_fields (rl : RawLink) (a : String) (nd : Node) :
    linkUpdate rl a nd
      = { nd with neighbours := (linkUpdate rl a nd).neighbours } := by
  unfold linkUpdate
  dsimp only
  split <;> split <;> rfl

theorem linkUpdate_mem (rl : RawLink) (a b : String) (nd : Node) :
    b ∈ (linkUpdate rl a nd).neighbours ↔
      b ∈ nd.neighbours ∨ (rl.source = a ∧ rl.target = b) ∨
        (rl.target = a ∧ rl.source = b) := by
  unfold linkUpdate
  dsimp only
  by_cases hs : a = rl.source <;> by_cases ht : a = rl.target
  · rw [if_pos hs, if_pos ht]
    show b ∈ AppendUnique (AppendUnique nd.neighbours rl.target) rl.source ↔ _
    rw [mem_AppendUnique, mem_AppendUnique]
    constructor
    · rintro ((h | rfl) | rfl)
      · exact Or.inl h
      · exact Or.inr (Or.inl ⟨hs.symm, rfl⟩)
      · exact Or.inr (Or.inr ⟨ht.symm, rfl⟩)
    · rintro (h | ⟨_, rfl⟩ | ⟨_, rfl⟩)
      · exact Or.inl (Or.inl h)
      · exact Or.inl (Or.inr rfl)
      · exact Or.inr rfl
  · rw [if_pos hs, if_neg ht]
    show b ∈ AppendUnique nd.neighbours rl.target ↔ _
    rw [mem_AppendUnique]
    constructor
    · rintro (h | rfl)
      · exact Or.inl h
      · exact Or.inr (Or.inl ⟨hs.symm, rfl⟩)
    · rintro (h | ⟨_, rfl⟩ | ⟨hta, _⟩)
      · exact Or.inl h
      · exact Or.inr rfl
      · exact absurd hta.symm ht
  · rw [if_neg hs, if_pos ht]
    show b ∈ AppendUnique nd.neighbours rl.source ↔ _
    rw [mem_AppendUnique]
    constructor
    · rintro (h | rfl)
      · exact Or.inl h
      · exact Or.inr (Or.inr ⟨ht.symm, rfl⟩)
    · rintro (h | ⟨hsa, _⟩ | ⟨_, rfl⟩)
      · exact Or.inl h
      · exact absurd hsa.symm hs
      · exact Or.inr rfl
  · rw [if_neg hs, if_neg ht]
    constructor
    · exact fun h => Or.inl h
    · rintro (h | ⟨hsa, _⟩ | ⟨hta, _⟩)
      · exact h
      · exact absurd hsa.symm hs
      · exact absurd hta.symm ht

theorem linkUpdate_nodup (rl : RawLink) (a : String) (nd : Node)
    (h : nd.neighbours.Nodup) : (linkUpdate rl a nd).neighbours.Nodup := by
  unfold linkUpdate
  dsimp only
  split <;> split
  · exact nodup_AppendUnique _ _ (nodup_AppendUnique _ _ h)
  · exact nodup_AppendUnique _ _ h
  · exact nodup_AppendUnique _ _ h
  · exact h

/-- The cumulative effect of the link loop on the node map: lookups keep
their presence, all fields but `neighbours` are unchanged, a node id `b`
is a neighbour of the entry at `a` exactly when it already was or some
processed link connects `a` and `b`, and neighbour lists stay
duplicate-free. -/
theorem processLinks_lookup_spec (hav : HaversineFn) :
    ∀ (links : List RawLink) (m : List (String × Node)) (a : String),
      ((mapLookup (processLinks hav m links).1 a = none) ↔
        (mapLookup m a = none)) ∧
      (∀ nd0, mapLookup m a = some nd0 →
        ∃ nd, mapLookup (processLinks hav m links).1 a = some nd ∧
          nd = { nd0 with neighbours := nd.neighbours } ∧
          (∀ b, b ∈ nd.neighbours ↔ b ∈ nd0.neighbours ∨
            ∃ l ∈ links, (l.source = a ∧ l.target = b) ∨
              (l.target = a ∧ l.source = b)) ∧
          (nd0.neighbours.Nodup → nd.neighbours.Nodup))
  | [], m, a => by
    constructor
    · exact Iff.rfl
    · intro nd0 h
      refine ⟨nd0, h, rfl, ?_, id⟩
      intro b
      simp
  | rl :: rest, m, a => by
    have hstep := processLink_lookup_update hav m rl a
    have hrec := processLinks_lookup_spec hav rest (processLink hav m rl).1 a
    have hshow : (processLinks hav m (rl :: rest)).1
        = (processLinks hav (processLink hav m rl).1 rest).1 := rfl
    constructor
    · rw [hshow, hrec.1, hstep]
      cases mapLookup m a <;> simp
    · intro nd0 h0
      have h1 : mapLookup (processLink hav m rl).1 a
          = some (linkUpdate rl a nd0) := by
        rw [hstep, h0]
        rfl
      obtain ⟨nd, hnd, hfields, hmem, hnodup⟩ := hrec.2 (linkUpdate rl a nd0) h1
      refine ⟨nd, ?_, ?_, ?_, ?_⟩
      · rw [hshow]
        exact hnd
      · exact hfields.trans (by rw [linkUpdate_fields rl a nd0])
      · intro b
        rw [hmem b, linkUpdate_mem]
        constructor
        · rintro ((h | hD) | ⟨l, hl, hP⟩)
          · exact Or.inl h
          · exact Or.inr ⟨rl, List.mem_cons_self rl rest, hD⟩
          · exact Or.inr ⟨l, List.mem_cons_of_mem rl hl, hP⟩
        · rintro (h | ⟨l, hl, hP⟩)
          · exact Or.inl (Or.inl h)
          · rcases List.mem_cons.mp hl with rfl | hl2
            · exact Or.inl (Or.inr hP)
            · exact Or.inr ⟨l, hl2, hP⟩
      · exact fun hn => hnodup (linkUpdate_nodup rl a nd0 hn)

theorem processLink_keys (hav : HaversineFn) (m : List (String × Node))
    (rl : RawLink) :
    ((processLink hav m rl).1).map Prod.fst = m.map Prod.fst := by
  unfold processLink
  dsimp only
  split
  · split
    · rw [keys_mapAdjust, keys_mapAdjust]
    · rw [keys_mapAdjust]
  · split
    · rw [keys_mapAdjust]
    · rfl

theorem processLinks_keys (hav : HaversineFn) :
    ∀ (links : List RawLink) (m : List (String × Node)),
      ((processLinks hav m links).1).map Prod.fst = m.map Prod.fst
  | [], _ => rfl
  | rl :: rest, m => by
    show ((processLinks hav (processLink hav m rl).1 rest).1).map Prod.fst = _
    rw [processLinks_keys hav rest (processLink hav m rl).1, processLink_keys]

theorem processLink_link_endpoints (hav : HaversineFn)
    (m : List (String × Node)) (rl : RawLink) :
    ((processLink hav m rl).2).source = rl.source ∧
    ((processLink hav m rl).2).target = rl.target := by
  unfold processLink
  dsimp only
  constructor
  · split
    · split <;> rfl
    · rfl
  · split
    · split <;> rfl
    · rfl

theorem processLinks_endpoints (hav : HaversineFn) :
    ∀ (links : List RawLink) (m : List (String × Node)),
      ((processLinks hav m links).2).map (fun l => (l.source, l.target)) =
        links.map (fun rl => (rl.source, rl.target))
  | [], _ => rfl
  | rl :: rest, m => by
    show (((processLink hav m rl).2) ::
        (processLinks hav (processLink hav m rl).1 rest).2).map
        (fun l => (l.source, l.target)) = _
    rw [List.map_cons, List.map_cons,
      processLinks_endpoints hav rest (processLink hav m rl).1,
      (processLink_link_endpoints hav m rl).1,
      (processLink_link_endpoints hav m rl).2]

/-! ## C3: neighbour derivation -/

theorem ProcessData_lookup_spec (hav : HaversineFn)
    (dn : List (String × String)) (raw : MeshviewerData) (a : String)
    (nd : Node) (h : mapLookup (ProcessData hav dn raw).nodes a = some nd) :
    nd.neighbours.Nodup ∧
    ∀ b, b ∈ nd.neighbours ↔ ∃ l ∈ raw.links,
      (l.source = a ∧ l.target = b) ∨ (l.target = a ∧ l.source = b) := by
  rw [ProcessData_nodes] at h
  cases hm0 : mapLookup (buildNodeMap dn raw.nodes) a with
  | none =>
    exfalso
    have hnone := (processLinks_lookup_spec hav raw.links
      (buildNodeMap dn raw.nodes) a).1.mpr hm0
    rw [h] at hnone
    cases hnone
  | some nd0 =>
    obtain ⟨nd2, hnd2, _, hmem, hnodup⟩ :=
      (processLinks_lookup_spec hav raw.links
        (buildNodeMap dn raw.nodes) a).2 nd0 hm0
    have heq : nd2 = nd := Option.some.inj (hnd2.symm.trans h)
    subst heq
    have hnb0 : nd0.neighbours = [] := by
      rw [buildNodeMap_lookup] at hm0
      cases hg : (raw.nodes.filter (fun rn => decide (rn.nodeID = a))).getLast?
        with
      | none => rw [hg] at hm0; cases hm0
      | some rn =>
        rw [hg] at hm0
        have hmk : mkNode dn rn = nd0 := Option.some.inj hm0
        rw [← hmk]
        rfl
    constructor
    · exact hnodup (by rw [hnb0]; exact List.nodup_nil)
    · intro b
      rw [hmem b, hnb0]
      simp

theorem buildNodeList_mem (dn : List (String × String))
    (m : List (String × Node)) :
    ∀ (raws : List RawNode) (n : Node), n ∈ buildNodeList dn m raws →
      (∃ rn, n = mkNode dn rn) ∨ (∃ a, mapLookup m a = some n)
  | [], n, hn => absurd hn (List.not_mem_nil n)
  | rn :: rest, n, hn => by
    rw [buildNodeList] at hn
    rcases List.mem_cons.mp hn with rfl | h2
    · by_cases hc : (rest.any fun r => decide (r.nodeID = rn.nodeID)) = true
      · exact Or.inl ⟨rn, by rw [if_pos hc]⟩
      · rw [if_neg hc]
        cases hlk : mapLookup m rn.nodeID with
        | none => exact Or.inl ⟨rn, rfl⟩
        | some nd => exact Or.inr ⟨rn.nodeID, by rw [hlk]; rfl⟩
    · exact buildNodeList_mem dn m rest n h2

/-- Witness distance function (no claim concerns distance values). -/
def hz0 : HaversineFn := fun _ _ _ _ => 0

/-- The C3 counterexample input: one node `a`, one link to an absent `b`. -/
def rawC3 : MeshviewerData :=
  { nodes := [{ nodeID := "a" }], links := [{ source := "a", target := "b" }] }

/-- C3 counterexample: the claim's "both endpoints present" iff fails on
`rawC3`: the link loop records `b` as a neighbour of `a` although `b` is
not in the node map, so membership does not imply a link with both
endpoints present. -/
theorem c3_counterexample :
    ¬ (∀ a nd, mapLookup (ProcessData hz0 [] rawC3).nodes a = some nd →
        ∀ b, b ∈ nd.neighbours ↔
          ∃ l ∈ rawC3.links,
            ((l.source = a ∧ l.target = b) ∨ (l.target = a ∧ l.source = b)) ∧
            (mapLookup (ProcessData hz0 [] rawC3).nodes l.source).isSome = true ∧
            (mapLookup (ProcessData hz0 [] rawC3).nodes l.target).isSome
              = true) := by
  intro h
  cases hnd : mapLookup (ProcessData hz0 [] rawC3).nodes "a" with
  | none => exact absurd hnd (by decide)
  | some nd =>
    have hnb : nd.neighbours = ["b"] := by
      have hm : (mapLookup (ProcessData hz0 [] rawC3).nodes "a").map
          Node.neighbours = some ["b"] := by decide
      rw [hnd] at hm
      simpa using hm
    have hmem : "b" ∈ nd.neighbours := by
      rw [hnb]
      exact List.mem_singleton.mpr rfl
    obtain ⟨l, hl, _, _, ht⟩ := (h "a" nd hnd "b").mp hmem
    have hlv : l = { source := "a", target := "b" } := by
      simpa [rawC3] using hl
    rw [hlv] at ht
    exact absurd ht (by decide)

/-- C3 (amended): every node's neighbour list in a built snapshot has no
duplicates, and an id `b` is a neighbour of the node-map entry at `a`
exactly when the raw input contains a link with source `a` and target `b`
or with target `a` and source `b`.  Only the endpoint owning the list must
be present in the node map: the other endpoint of a link is recorded as a
neighbour even when it is absent (endpoints absent from the map are *not*
dropped from neighbour derivation). -/
theorem c3_neighbours_amended (hav : HaversineFn)
    (dn : List (String × String)) (raw : MeshviewerData) :
    (∀ n ∈ (ProcessData hav dn raw).nodeList, n.neighbours.Nodup) ∧
    (∀ p ∈ (ProcessData hav dn raw).nodes, p.2.neighbours.Nodup) ∧
    (∀ a nd, mapLookup (ProcessData hav dn raw).nodes a = some nd →
      ∀ b, b ∈ nd.neighbours ↔
        ∃ l ∈ raw.links,
          (l.source = a ∧ l.target = b) ∨ (l.target = a ∧ l.source = b)) := by
  have hkeys : ((ProcessData hav dn raw).nodes.map Prod.fst).Nodup := by
    rw [ProcessData_nodes, processLinks_keys]
    exact buildNodeMap_keys_nodup dn raw.nodes
  refine ⟨?_, ?_, ?_⟩
  · intro n hn
    rw [ProcessData_nodeList] at hn
    have hn2 : n ∈ buildNodeList dn
        (processLinks hav (buildNodeMap dn raw.nodes) raw.links).1 raw.nodes :=
      (List.mergeSort_perm _ nodeLe).mem_iff.mp hn
    rcases buildNodeList_mem dn _ raw.nodes n hn2 with ⟨rn, rfl⟩ | ⟨a, ha⟩
    · show ([] : List String).Nodup
      exact List.nodup_nil
    · exact (ProcessData_lookup_spec hav dn raw a n
        (by rw [ProcessData_nodes]; exact ha)).1
  · intro p hp
    have hlk := mapLookup_self_of_nodup _ hkeys p hp
    exact (ProcessData_lookup_spec hav dn raw p.1 p.2 hlk).1
  · intro a nd h b
    exact (ProcessData_lookup_spec hav dn raw a nd h).2 b

/-! ## C5/C10: stats and node-list counting lemmas -/

theorem tallyNode_totalNodes (dn : List (String × String)) (st : Stats)
    (rn : RawNode) : (tallyNode dn st rn).totalNodes = st.totalNodes + 1 := by
  unfold tallyNode
  dsimp only
  split_ifs <;> rfl

theorem tallyNode_onlineNodes (dn : List (String × String)) (st : Stats)
    (rn : RawNode) : (tallyNode dn st rn).onlineNodes
      = st.onlineNodes + (if rn.isOnline = true then 1 else 0) := by
  unfold tallyNode
  dsimp only
  split_ifs <;> rfl

theorem tallyNode_totalClients (dn : List (String × String)) (st : Stats)
    (rn : RawNode) : (tallyNode dn st rn).totalClients
      = st.totalClients + (if rn.isOnline = true then rn.clients else 0) := by
  unfold tallyNode
  dsimp only
  split_ifs <;> simp

theorem tallyNode_gateways (dn : List (String × String)) (st : Stats)
    (rn : RawNode) : (tallyNode dn st rn).gateways
      = st.gateways + (if rn.isGateway = true then 1 else 0) := by
  unfold tallyNode
  dsimp only
  split_ifs <;> rfl

theorem statsOfRaw_scalars (dn : List (String × String)) (raws : List RawNode)
    (st0 : Stats) :
    (raws.foldl (tallyNode dn) st0).totalNodes
        = st0.totalNodes + raws.length ∧
    (raws.foldl (tallyNode dn) st0).onlineNodes
        = st0.onlineNodes + (raws.filter (fun rn => rn.isOnline)).length ∧
    (raws.foldl (tallyNode dn) st0).totalClients
        = st0.totalClients
          + ((raws.filter (fun rn => rn.isOnline)).map
              (fun rn => rn.clients)).sum ∧
    (raws.foldl (tallyNode dn) st0).gateways
        = st0.gateways + (raws.filter (fun rn => rn.isGateway)).length := by
  induction raws generalizing st0 with
  | nil => simp
  | cons rn rest ih =>
    obtain ⟨ih1, ih2, ih3, ih4⟩ := ih (tallyNode dn st0 rn)
    rw [List.foldl_cons]
    refine ⟨?_, ?_, ?_, ?_⟩
    · rw [ih1, tallyNode_totalNodes, List.length_cons]
      omega
    · rw [ih2, tallyNode_onlineNodes, List.filter_cons]
      by_cases h : rn.isOnline = true
      · rw [if_pos h, if_pos (by simp [h]), List.length_cons]
        omega
      · rw [if_neg h, if_neg (by simp [h])]
        omega
    · rw [ih3, tallyNode_totalClients, List.filter_cons]
      by_cases h : rn.isOnline = true
      · rw [if_pos h, if_pos (by simp [h]), List.map_cons, List.sum_cons]
        ring
      · rw [if_neg h, if_neg (by simp [h])]
        ring
    · rw [ih4, tallyNode_gateways, List.filter_cons]
      by_cases h : rn.isGateway = true
      · rw [if_pos h, if_pos (by simp [h]), List.length_cons]
        omega
      · rw [if_neg h, if_neg (by simp [h])]
        omega

theorem buildNodeList_map_stripN (dn : List (String × String))
    (m : List (String × Node)) :
    ∀ raws : List RawNode,
      (∀ a rn,
        (raws.filter (fun r => decide (r.nodeID = a))).getLast? = some rn →
        ∃ nd, mapLookup m a = some nd ∧ stripN nd = stripN (mkNode dn rn)) →
      (buildNodeList dn m raws).map stripN
        = raws.map (fun r => stripN (mkNode dn r))
  | [], _ => rfl
  | rn :: rest, hm => by
    rw [buildNodeList, List.map_cons, List.map_cons]
    have hrest : ∀ a rn2,
        (rest.filter (fun r => decide (r.nodeID = a))).getLast? = some rn2 →
        ∃ nd, mapLookup m a = some nd ∧ stripN nd = stripN (mkNode dn rn2) := by
      intro a rn2 h2
      apply hm a rn2
      rw [List.filter_cons]
      split
      · cases hfe : rest.filter (fun r => decide (r.nodeID = a)) with
        | nil => rw [hfe] at h2; cases h2
        | cons x xs =>
          rw [hfe] at h2
          rw [List.getLast?_cons_cons]
          exact h2
      · exact h2
    rw [buildNodeList_map_stripN dn m rest hrest]
    congr 1
    by_cases hc : (rest.any fun r => decide (r.nodeID = rn.nodeID)) = true
    · rw [if_pos hc]
    · rw [if_neg hc]
      have hnil : rest.filter (fun r => decide (r.nodeID = rn.nodeID)) = [] := by
        rw [List.filter_eq_nil_iff]
        intro r hr hdec
        exact hc (List.any_eq_true.mpr ⟨r, hr, hdec⟩)
      have hlast : ((rn :: rest).filter
          (fun r => decide (r.nodeID = rn.nodeID))).getLast? = some rn := by
        rw [List.filter_cons, if_pos (by simp), hnil]
        rfl
      obtain ⟨nd, hnd, hstrip⟩ := hm rn.nodeID rn hlast
      rw [hnd]
      exact hstrip

theorem ProcessData_strip_hyp (hav : HaversineFn)
    (dn : List (String × String)) (raw : MeshviewerData) :
    ∀ a rn,
      (raw.nodes.filter (fun r => decide (r.nodeID = a))).getLast? = some rn →
      ∃ nd, mapLookup
          (processLinks hav (buildNodeMap dn raw.nodes) raw.links).1 a
          = some nd ∧
        stripN nd = stripN (mkNode dn rn) := by
  intro a rn h
  have hm0 : mapLookup (buildNodeMap dn raw.nodes) a = some (mkNode dn rn) := by
    rw [buildNodeMap_lookup, h]
    rfl
  obtain ⟨nd, hnd, hfields, _, _⟩ :=
    (processLinks_lookup_spec hav raw.links (buildNodeMap dn raw.nodes) a).2
      _ hm0
  refine ⟨nd, hnd, ?_⟩
  rw [show stripN nd
      = stripN { mkNode dn rn with neighbours := nd.neighbours } from
    congrArg stripN hfields]
  rfl

/-- The node list of a built snapshot is, up to the derived neighbour
lists, a permutation of the per-record canonical nodes. -/
theorem ProcessData_nodeList_perm (hav : HaversineFn)
    (dn : List (String × String)) (raw : MeshviewerData) :
    List.Perm (((ProcessData hav dn raw).nodeList).map stripN)
      (raw.nodes.map (fun r => stripN (mkNode dn r))) := by
  rw [ProcessData_nodeList]
  have hperm := List.mergeSort_perm
    (buildNodeList dn
      (processLinks hav (buildNodeMap dn raw.nodes) raw.links).1 raw.nodes)
    nodeLe
  have hmap := hperm.map stripN
  rwa [buildNodeList_map_stripN dn _ raw.nodes
    (ProcessData_strip_hyp hav dn raw)] at hmap

theorem nodeList_length_eq (hav : HaversineFn) (dn : List (String × String))
    (raw : MeshviewerData) :
    (ProcessData hav dn raw).nodeList.length = raw.nodes.length := by
  have h := (ProcessData_nodeList_perm hav dn raw).length_eq
  rwa [List.length_map, List.length_map] at h

theorem nodeList_countP_eq (hav : HaversineFn) (dn : List (String × String))
    (raw : MeshviewerData) (p : Node → Bool) (q : RawNode → Bool)
    (hp : ∀ n, p (stripN n) = p n)
    (hpq : ∀ rn, p (stripN (mkNode dn rn)) = q rn) :
    (ProcessData hav dn raw).nodeList.countP p = raw.nodes.countP q := by
  have hperm := (ProcessData_nodeList_perm hav dn raw).countP_eq p
  rw [List.countP_map, List.countP_map] at hperm
  rw [show (p ∘ stripN) = p from funext hp] at hperm
  rwa [show (p ∘ fun r => stripN (mkNode dn r)) = q from funext hpq] at hperm

theorem nodeList_sum_eq (hav : HaversineFn) (dn : List (String × String))
    (raw : MeshviewerData) (f : Node → Int) (g : RawNode → Int)
    (hf : ∀ n, f (stripN n) = f n)
    (hfg : ∀ rn, f (stripN (mkNode dn rn)) = g rn) :
    ((ProcessData hav dn raw).nodeList.map f).sum = (raw.nodes.map g).sum := by
  have hperm := ((ProcessData_nodeList_perm hav dn raw).map f).sum_eq
  rw [List.map_map, List.map_map] at hperm
  rw [show (f ∘ stripN) = f from funext hf] at hperm
  rwa [show (f ∘ fun r => stripN (mkNode dn r)) = g from funext hfg] at hperm

theorem sum_map_filter {α : Type} (p : α → Bool) (f : α → Int) :
    ∀ l : List α, ((l.filter p).map f).sum
      = (l.map (fun x => if p x = true then f x else 0)).sum
  | [] => rfl
  | x :: rest => by
    rw [List.filter_cons, List.map_cons, List.sum_cons]
    by_cases h : p x = true
    · rw [if_pos h, if_pos h, List.map_cons, List.sum_cons,
        sum_map_filter p f rest]
    · rw [if_neg h, if_neg h, sum_map_filter p f rest]
      omega

/-- C5: for every built snapshot, `TotalNodes` is the number of nodes in
the snapshot's node list, `OnlineNodes` counts the online ones,
`TotalClients` sums the client counts of the online ones only, and
`Gateways` counts the gateway nodes. -/
theorem c5_stats_match (hav : HaversineFn) (dn : List (String × String))
    (raw : MeshviewerData) :
    (ProcessData hav dn raw).stats.totalNodes
        = (ProcessData hav dn raw).nodeList.length ∧
    (ProcessData hav dn raw).stats.onlineNodes
        = ((ProcessData hav dn raw).nodeList.filter
            (fun n => n.isOnline)).length ∧
    (ProcessData hav dn raw).stats.totalClients
        = (((ProcessData hav dn raw).nodeList.filter
            (fun n => n.isOnline)).map (fun n => n.clients)).sum ∧
    (ProcessData hav dn raw).stats.gateways
        = ((ProcessData hav dn raw).nodeList.filter
            (fun n => n.isGateway)).length := by
  obtain ⟨h1, h2, h3, h4⟩ :=
    statsOfRaw_scalars dn raw.nodes { timestamp := raw.timestamp }
  have hstats : (ProcessData hav dn raw).stats
      = raw.nodes.foldl (tallyNode dn) { timestamp := raw.timestamp } := rfl
  refine ⟨?_, ?_, ?_, ?_⟩
  · rw [hstats, h1, nodeList_length_eq]
    simp
  · rw [hstats, h2,
      show ((ProcessData hav dn raw).nodeList.filter
          (fun n => n.isOnline)).length
        = (ProcessData hav dn raw).nodeList.countP (fun n => n.isOnline) from
        (List.countP_eq_length_filter _ _).symm,
      nodeList_countP_eq hav dn raw (fun n => n.isOnline)
        (fun rn => rn.isOnline) (fun n => rfl) (fun rn => rfl),
      List.countP_eq_length_filter]
    simp
  · rw [hstats, h3, sum_map_filter, sum_map_filter,
      nodeList_sum_eq hav dn raw
        (fun n => if n.isOnline = true then n.clients else 0)
        (fun rn => if rn.isOnline = true then rn.clients else 0)
        (fun n => rfl) (fun rn => rfl)]
    simp
  · rw [hstats, h4,
      show ((ProcessData hav dn raw).nodeList.filter
          (fun n => n.isGateway)).length
        = (ProcessData hav dn raw).nodeList.countP (fun n => n.isGateway) from
        (List.countP_eq_length_filter _ _).symm,
      nodeList_countP_eq hav dn raw (fun n => n.isGateway)
        (fun rn => rn.isGateway) (fun n => rfl) (fun rn => rfl),
      List.countP_eq_length_filter]
    simp

/-! ## C9: node list sort order -/

theorem nodeLe_total (a b : Node) : (nodeLe a b || nodeLe b a) = true := by
  unfold nodeLe nodeLess
  cases hA : a.isOnline <;> cases hB : b.isOnline <;> simp_all
  · exact le_total _ _
  · exact le_total _ _

theorem nodeLe_trans (a b c : Node) (h1 : nodeLe a b = true)
    (h2 : nodeLe b c = true) : nodeLe a c = true := by
  unfold nodeLe nodeLess at *
  cases hA : a.isOnline <;> cases hB : b.isOnline <;> cases hC : c.isOnline <;>
    simp_all
  · exact le_trans h1 h2
  · exact le_trans h1 h2

/-- C9: the node list of every built snapshot is ordered with all online
nodes before all offline nodes, and within equal online status by
lowercased hostname ascending. -/
theorem c9_nodeList_sorted (hav : HaversineFn) (dn : List (String × String))
    (raw : MeshviewerData) :
    (ProcessData hav dn raw).nodeList.Pairwise (fun a b =>
      (b.isOnline = true → a.isOnline = true) ∧
      (a.isOnline = b.isOnline →
        a.hostname.toLower ≤ b.hostname.toLower)) := by
  rw [ProcessData_nodeList]
  have hs := @List.sorted_mergeSort _ nodeLe nodeLe_trans nodeLe_total
    (buildNodeList dn
      (processLinks hav (buildNodeMap dn raw.nodes) raw.links).1 raw.nodes)
  refine hs.imp ?_
  intro a b hle
  unfold nodeLe nodeLess at hle
  rw [Bool.not_eq_true'] at hle
  constructor
  · intro hb
    by_cases h : a.isOnline = b.isOnline
    · rw [h]; exact hb
    · rw [if_pos (fun he => h he.symm), hb] at hle
      cases hle
  · intro h
    rw [if_neg (by simp [h])] at hle
    rw [decide_eq_false_iff_not] at hle
    exact not_lt.mp hle

/-! ## C4: diff laws -/

/-- C4: `ComputeDiff(A, A)` on a snapshot with a non-empty node map emits
a `stats` update with empty `Changed`/`New`/`Gone`; when the old snapshot
is `nil` or has an empty node map, the diff is a `full` update carrying
only the current stats. -/
theorem c4_diff_laws :
    (∀ A : Snapshot, A.nodes ≠ [] → (A.nodes.map Prod.fst).Nodup →
      ComputeDiff (some A) A
        = { type := "stats", stats := A.stats, changed := [], gone := [],
            new := [] }) ∧
    (∀ (old : Option Snapshot) (cur : Snapshot),
      (old = none ∨ ∃ o, old = some o ∧ o.nodes = []) →
      ComputeDiff old cur
        = { type := "full", stats := cur.stats, changed := [], gone := [],
            new := [] }) := by
  constructor
  · intro A hne hnd
    unfold ComputeDiff
    dsimp only
    rw [if_neg (by simpa using hne)]
    split
    · rfl
    · rename_i hcond
      exfalso
      apply hcond
      refine ⟨?_, ?_, ?_⟩
      · rw [List.length_eq_zero, List.filterMap_eq_nil_iff]
        intro p hp
        rw [mapLookup_self_of_nodup A.nodes hnd p hp]
        dsimp only
        rw [if_neg]
        rintro (h | h | h | h) <;> exact h rfl
      · rw [List.length_map, List.length_eq_zero, List.filter_eq_nil_iff]
        intro p hp hnone
        rw [Option.isNone_iff_eq_none] at hnone
        have hsome := (mapLookup_isSome_iff A.nodes p.1).mpr
          (List.mem_map_of_mem Prod.fst hp)
        rw [hnone] at hsome
        cases hsome
      · rw [List.length_map, List.length_eq_zero, List.filter_eq_nil_iff]
        intro p hp hnone
        rw [Option.isNone_iff_eq_none] at hnone
        have hsome := (mapLookup_isSome_iff A.nodes p.1).mpr
          (List.mem_map_of_mem Prod.fst hp)
        rw [hnone] at hsome
        cases hsome
  · rintro old cur (rfl | ⟨o, rfl, ho⟩)
    · rfl
    · unfold ComputeDiff
      dsimp only
      rw [if_pos (by rw [ho]; rfl)]

theorem c4_diff_laws_witness :
    ComputeDiff (some (ProcessData hz0 [] rawC3)) (ProcessData hz0 [] rawC3)
      = { type := "stats", stats := (ProcessData hz0 [] rawC3).stats,
          changed := [], gone := [], new := [] } :=
  c4_diff_laws.1 (ProcessData hz0 [] rawC3) (by decide) (by decide)

/-! ## C10: duplicate node ids -/

/-- C10: when the raw input has two or more records with the same
`node_id`, the built node list still has one entry per raw record and
`TotalNodes` counts all raw records, while the node map holds exactly one
entry for that id, namely (up to derived neighbours) the node built from
the last such record; consequently the node map is strictly smaller than
`TotalNodes`. -/
theorem c10_duplicate_node_ids (hav : HaversineFn)
    (dn : List (String × String)) (raw : MeshviewerData) (nid : String)
    (hdup : 2 ≤ (raw.nodes.filter
        (fun rn => decide (rn.nodeID = nid))).length) :
    (ProcessData hav dn raw).nodeList.length = raw.nodes.length ∧
    (ProcessData hav dn raw).stats.totalNodes = raw.nodes.length ∧
    List.count nid ((ProcessData hav dn raw).nodes.map Prod.fst) = 1 ∧
    (mapLookup (ProcessData hav dn raw).nodes nid).map stripN
      = ((raw.nodes.filter (fun rn => decide (rn.nodeID = nid))).getLast?).map
          (fun rn => stripN (mkNode dn rn)) ∧
    (ProcessData hav dn raw).nodes.length
      < (ProcessData hav dn raw).stats.totalNodes := by
  have hkeys : ((ProcessData hav dn raw).nodes.map Prod.fst).Nodup := by
    rw [ProcessData_nodes, processLinks_keys]
    exact buildNodeMap_keys_nodup dn raw.nodes
  have hmemkeys : ∀ a, a ∈ (ProcessData hav dn raw).nodes.map Prod.fst ↔
      a ∈ raw.nodes.map RawNode.nodeID := by
    intro a
    rw [ProcessData_nodes, processLinks_keys]
    exact buildNodeMap_keys_mem dn raw.nodes a
  have htn : (ProcessData hav dn raw).stats.totalNodes = raw.nodes.length := by
    have h1 := (statsOfRaw_scalars dn raw.nodes { timestamp := raw.timestamp }).1
    rw [show (ProcessData hav dn raw).stats
        = raw.nodes.foldl (tallyNode dn) { timestamp := raw.timestamp } from rfl,
      h1]
    simp
  have hne : (raw.nodes.filter (fun rn => decide (rn.nodeID = nid))) ≠ [] := by
    intro h0
    rw [h0] at hdup
    simp at hdup
  refine ⟨nodeList_length_eq hav dn raw, htn, ?_, ?_, ?_⟩
  · have hle := List.nodup_iff_count_le_one.mp hkeys nid
    have hmem : nid ∈ (ProcessData hav dn raw).nodes.map Prod.fst := by
      rw [hmemkeys]
      rcases List.exists_mem_of_ne_nil _ hne with ⟨rn, hrn⟩
      rw [List.mem_filter] at hrn
      have h2 := hrn.2
      rw [decide_eq_true_iff] at h2
      exact h2 ▸ List.mem_map_of_mem RawNode.nodeID hrn.1
    have hpos := List.count_pos_iff.mpr hmem
    omega
  · cases hg : (raw.nodes.filter
        (fun rn => decide (rn.nodeID = nid))).getLast? with
    | none =>
      exfalso
      have hs : (raw.nodes.filter
          (fun rn => decide (rn.nodeID = nid))).getLast?.isSome = true :=
        List.getLast?_isSome.mpr hne
      rw [hg] at hs
      cases hs
    | some rn =>
      obtain ⟨nd, hnd, hstrip⟩ := ProcessData_strip_hyp hav dn raw nid rn hg
      rw [ProcessData_nodes, hnd]
      show some (stripN nd) = some (stripN (mkNode dn rn))
      rw [hstrip]
  · rw [htn]
    have hlen : (ProcessData hav dn raw).nodes.length
        = ((ProcessData hav dn raw).nodes.map Prod.fst).length := by simp
    rw [hlen]
    have h1 : ((ProcessData hav dn raw).nodes.map Prod.fst).length
        = ((ProcessData hav dn raw).nodes.map Prod.fst).toFinset.card :=
      (List.toFinset_card_of_nodup hkeys).symm
    have hsub : ((ProcessData hav dn raw).nodes.map Prod.fst).toFinset
        ⊆ (raw.nodes.map RawNode.nodeID).toFinset := by
      intro a ha
      rw [List.mem_toFinset] at ha ⊢
      exact (hmemkeys a).mp ha
    have h2 := Finset.card_le_card hsub
    have h3 : (raw.nodes.map RawNode.nodeID).toFinset.card
        = (raw.nodes.map RawNode.nodeID).dedup.length :=
      List.card_toFinset _
    have h4 : (raw.nodes.map RawNode.nodeID).dedup.length
        < (raw.nodes.map RawNode.nodeID).length := by
      have hsl := List.dedup_sublist (raw.nodes.map RawNode.nodeID)
      rcases lt_or_eq_of_le hsl.length_le with h | h
      · exact h
      · exfalso
        have heq := hsl.eq_of_length h
        have hnd2 : (raw.nodes.map RawNode.nodeID).Nodup :=
          heq ▸ List.nodup_dedup (raw.nodes.map RawNode.nodeID)
        have hcnt : 2 ≤ List.count nid (raw.nodes.map RawNode.nodeID) := by
          rw [List.count_eq_countP]
          have hfun : (fun x => x == nid)
              = (fun x : String => decide (x = nid)) := by
            funext x
            by_cases h : x = nid <;> simp [h]
          rw [hfun, List.countP_eq_length_filter, List.filter_map]
          rw [List.length_map]
          exact hdup
        have := List.nodup_iff_count_le_one.mp hnd2 nid
        omega
    have hidlen : (raw.nodes.map RawNode.nodeID).length = raw.nodes.length :=
      by simp
    omega

theorem c3_neighbours_amended_witness :
    ∃ nd, mapLookup (ProcessData hz0 [] rawC3).nodes "a" = some nd ∧
      ("b" ∈ nd.neighbours ↔ ∃ l ∈ rawC3.links,
        (l.source = "a" ∧ l.target = "b") ∨
          (l.target = "a" ∧ l.source = "b")) := by
  cases hnd : mapLookup (ProcessData hz0 [] rawC3).nodes "a" with
  | none => exact absurd hnd (by decide)
  | some nd =>
    exact ⟨nd, rfl,
      (c3_neighbours_amended hz0 [] rawC3).2.2 "a" nd hnd "b"⟩

/-- C10 witness input: two records sharing the id `dd`. -/
def rawC10 : MeshviewerData :=
  { nodes := [{ nodeID := "dd", hostname := "one", clients := 1 },
              { nodeID := "dd", hostname := "two", clients := 2 }] }

theorem c10_duplicate_node_ids_witness :
    (ProcessData hz0 [] rawC10).nodeList.length = 2 ∧
    (ProcessData hz0 [] rawC10).stats.totalNodes = 2 ∧
    (ProcessData hz0 [] rawC10).nodes.length
      < (ProcessData hz0 [] rawC10).stats.totalNodes := by
  have h := c10_duplicate_node_ids hz0 [] rawC10 "dd" (by decide)
  exact ⟨h.1, h.2.1, h.2.2.2.2⟩

/-! ## C6: save/restore round trip -/

theorem tagNode_nodeID (ncm : NodeCommMap) (n : Node) :
    (tagNode ncm n).nodeID = n.nodeID := by
  unfold tagNode
  cases (mapLookup ncm n.nodeID).getD [] <;> rfl

theorem nodeToRaw_tagNode (ncm : NodeCommMap) (n : Node) :
    nodeToRaw (tagNode ncm n) = nodeToRaw n := by
  unfold tagNode
  cases (mapLookup ncm n.nodeID).getD [] <;> rfl

theorem applyCommunityTags_keys (ncm : NodeCommMap) (snap : Snapshot) :
    (applyCommunityTags ncm snap).nodes.map Prod.fst
      = snap.nodes.map Prod.fst := by
  unfold applyCommunityTags
  rw [List.map_map]
  rfl

theorem applyCommunityTags_links (ncm : NodeCommMap) (snap : Snapshot) :
    (applyCommunityTags ncm snap).links = snap.links := rfl

theorem applyCommunityTags_scalars (ncm : NodeCommMap) (snap : Snapshot) :
    (applyCommunityTags ncm snap).stats.totalNodes = snap.stats.totalNodes ∧
    (applyCommunityTags ncm snap).stats.onlineNodes = snap.stats.onlineNodes ∧
    (applyCommunityTags ncm snap).stats.totalClients
      = snap.stats.totalClients ∧
    (applyCommunityTags ncm snap).stats.gateways = snap.stats.gateways :=
  ⟨rfl, rfl, rfl, rfl⟩

theorem applyCommunityTags_communities (ncm : NodeCommMap) (snap : Snapshot) :
    (applyCommunityTags ncm snap).stats.communities
      = commStats ncm snap.nodes := rfl

theorem applyCommunityTags_nodeList_toRaw (ncm : NodeCommMap)
    (snap : Snapshot) :
    (applyCommunityTags ncm snap).nodeList.map nodeToRaw
      = snap.nodeList.map nodeToRaw := by
  unfold applyCommunityTags
  rw [List.map_map]
  apply List.map_congr_left
  intro n _
  show nodeToRaw (if mapLookup snap.nodes n.nodeID = some n
      then tagNode ncm n else n) = nodeToRaw n
  split
  · exact nodeToRaw_tagNode ncm n
  · rfl

theorem histCount_commStats (ncm : NodeCommMap)
    (entries : List (String × Node)) (c : String) :
    histCount (commStats ncm entries) c
      = (entries.map
          (fun p => List.count c ((mapLookup ncm p.2.nodeID).getD []))).sum := by
  unfold commStats
  have hgen : ∀ (es : List (String × Node)) (init : List (String × Nat)),
      histCount (es.foldl
        (fun st p => ((mapLookup ncm p.2.nodeID).getD []).foldl bump st) init) c
      = histCount init c
        + (es.map
            (fun p => List.count c ((mapLookup ncm p.2.nodeID).getD []))).sum := by
    intro es
    induction es with
    | nil => intro init; simp
    | cons p rest ih =>
      intro init
      rw [List.foldl_cons, ih, histCount_foldl_bump, List.map_cons,
        List.sum_cons]
      omega
  rw [hgen]
  simp [histCount, mapLookup_nil]

theorem mapInsert_coherent (m : List (String × Node)) (k : String) (v : Node)
    (hv : v.nodeID = k) (hm : ∀ p ∈ m, p.2.nodeID = p.1) :
    ∀ p ∈ mapInsert m k v, p.2.nodeID = p.1 := by
  unfold mapInsert
  split
  · intro p hp
    rw [List.mem_map] at hp
    obtain ⟨q, hq, hpq⟩ := hp
    by_cases hqk : q.1 = k
    · rw [if_pos hqk] at hpq
      rw [← hpq]
      exact hv
    · rw [if_neg hqk] at hpq
      rw [← hpq]
      exact hm q hq
  · intro p hp
    rw [List.mem_append] at hp
    rcases hp with hp | hp
    · exact hm p hp
    · rw [List.mem_singleton] at hp
      rw [hp]
      exact hv

theorem buildNodeMap_coherent (dn : List (String × String))
    (raws : List RawNode) :
    ∀ p ∈ buildNodeMap dn raws, p.2.nodeID = p.1 := by
  unfold buildNodeMap
  have hgen : ∀ (rs : List RawNode) (m0 : List (String × Node)),
      (∀ p ∈ m0, p.2.nodeID = p.1) →
      ∀ p ∈ rs.foldl
        (fun m rn => mapInsert m rn.nodeID (mkNode dn rn)) m0,
        p.2.nodeID = p.1 := by
    intro rs
    induction rs with
    | nil => intro m0 h; exact h
    | cons rn rest ih =>
      intro m0 h
      exact ih _ (mapInsert_coherent m0 rn.nodeID (mkNode dn rn) rfl h)
  intro p hp
  exact hgen raws [] (by intro p hp; cases hp) p hp

theorem mapAdjust_coherent (m : List (String × Node)) (k : String)
    (f : Node → Node) (hf : ∀ n, (f n).nodeID = n.nodeID)
    (hm : ∀ p ∈ m, p.2.nodeID = p.1) :
    ∀ p ∈ mapAdjust m k f, p.2.nodeID = p.1 := by
  unfold mapAdjust
  intro p hp
  rw [List.mem_map] at hp
  obtain ⟨q, hq, hpq⟩ := hp
  by_cases hqk : q.1 = k
  · rw [if_pos hqk] at hpq
    rw [← hpq]
    show (f q.2).nodeID = q.1
    rw [hf q.2]
    exact hm q hq
  · rw [if_neg hqk] at hpq
    rw [← hpq]
    exact hm q hq

theorem processLink_coherent (hav : HaversineFn) (m : List (String × Node))
    (rl : RawLink) (hm : ∀ p ∈ m, p.2.nodeID = p.1) :
    ∀ p ∈ (processLink hav m rl).1, p.2.nodeID = p.1 := by
  unfold processLink
  dsimp only
  split
  · split
    · apply mapAdjust_coherent
      · intro n; rfl
      · apply mapAdjust_coherent
        · intro n; rfl
        · exact hm
    · apply mapAdjust_coherent
      · intro n; rfl
      · exact hm
  · split
    · apply mapAdjust_coherent
      · intro n; rfl
      · exact hm
    · exact hm

theorem processLinks_coherent (hav : HaversineFn) :
    ∀ (links : List RawLink) (m : List (String × Node)),
      (∀ p ∈ m, p.2.nodeID = p.1) →
      ∀ p ∈ (processLinks hav m links).1, p.2.nodeID = p.1
  | [], _, hm => hm
  | rl :: rest, m, hm =>
    processLinks_coherent hav rest (processLink hav m rl).1
      (processLink_coherent hav m rl hm)

theorem ProcessData_nodeIDs_perm (hav : HaversineFn)
    (dn : List (String × String)) (raw : MeshviewerData) :
    List.Perm ((ProcessData hav dn raw).nodeList.map Node.nodeID)
      (raw.nodes.map RawNode.nodeID) := by
  have h := (ProcessData_nodeList_perm hav dn raw).map Node.nodeID
  rw [List.map_map, List.map_map] at h
  rwa [show Node.nodeID ∘ stripN = Node.nodeID from funext (fun n => rfl),
    show (Node.nodeID ∘ fun r => stripN (mkNode dn r)) = RawNode.nodeID from
      funext (fun rn => rfl)] at h

theorem commStats_histCount_keys (ncm : NodeCommMap)
    (entries : List (String × Node))
    (hco : ∀ p ∈ entries, p.2.nodeID = p.1) (c : String) :
    histCount (commStats ncm entries) c
      = ((entries.map Prod.fst).map
          (fun id => List.count c ((mapLookup ncm id).getD []))).sum := by
  rw [histCount_commStats, List.map_map]
  congr 1
  apply List.map_congr_left
  intro p hp
  show List.count c ((mapLookup ncm p.2.nodeID).getD [])
      = List.count c ((mapLookup ncm p.1).getD [])
  rw [hco p hp]

theorem ProcessData_totalNodes (hav : HaversineFn)
    (dn : List (String × String)) (raw : MeshviewerData) :
    (ProcessData hav dn raw).stats.totalNodes = raw.nodes.length := by
  have h1 := (statsOfRaw_scalars dn raw.nodes { timestamp := raw.timestamp }).1
  rw [show (ProcessData hav dn raw).stats
      = raw.nodes.foldl (tallyNode dn) { timestamp := raw.timestamp } from rfl,
    h1]
  simp

theorem ProcessData_onlineNodes (hav : HaversineFn)
    (dn : List (String × String)) (raw : MeshviewerData) :
    (ProcessData hav dn raw).stats.onlineNodes
      = (raw.nodes.filter (fun rn => rn.isOnline)).length := by
  have h1 :=
    (statsOfRaw_scalars dn raw.nodes { timestamp := raw.timestamp }).2.1
  rw [show (ProcessData hav dn raw).stats
      = raw.nodes.foldl (tallyNode dn) { timestamp := raw.timestamp } from rfl,
    h1]
  simp

theorem ProcessData_totalClients (hav : HaversineFn)
    (dn : List (String × String)) (raw : MeshviewerData) :
    (ProcessData hav dn raw).stats.totalClients
      = ((raw.nodes.filter (fun rn => rn.isOnline)).map
          (fun rn => rn.clients)).sum := by
  have h1 :=
    (statsOfRaw_scalars dn raw.nodes { timestamp := raw.timestamp }).2.2.1
  rw [show (ProcessData hav dn raw).stats
      = raw.nodes.foldl (tallyNode dn) { timestamp := raw.timestamp } from rfl,
    h1]
  simp

theorem ProcessData_gateways (hav : HaversineFn)
    (dn : List (String × String)) (raw : MeshviewerData) :
    (ProcessData hav dn raw).stats.gateways
      = (raw.nodes.filter (fun rn => rn.isGateway)).length := by
  have h1 :=
    (statsOfRaw_scalars dn raw.nodes { timestamp := raw.timestamp }).2.2.2
  rw [show (ProcessData hav dn raw).stats
      = raw.nodes.foldl (tallyNode dn) { timestamp := raw.timestamp } from rfl,
    h1]
  simp

/-- C6: saving the published federation snapshot and restoring it yields a
snapshot with the same set of node ids, the same list of link endpoint
pairs, and equal stats tallies (total nodes, online nodes, total clients,
gateways, and per-community counts). -/
theorem c6_save_restore_roundtrip (hav : HaversineFn)
    (cfgDN : List (String × String)) (communities : List Community)
    (sources : List CommunitySource) (now now2 : String)
    (results : List FetchResult)
    (hc : communities ≠ []) (hs : sources ≠ [])
    (hn : (buildFedSnapshot hav cfgDN communities now results).1.nodes ≠ []) :
    ∃ cache snap2,
      SaveState communities sources
        (buildFedSnapshot hav cfgDN communities now results).2
        (buildFedSnapshot hav cfgDN communities now results).1 now2
        = some cache ∧
      RestoreState hav cfgDN cache = some snap2 ∧
      (∀ id, id ∈ snap2.nodes.map Prod.fst ↔
        id ∈ (buildFedSnapshot hav cfgDN communities now
          results).1.nodes.map Prod.fst) ∧
      snap2.links.map (fun l => (l.source, l.target))
        = (buildFedSnapshot hav cfgDN communities now
            results).1.links.map (fun l => (l.source, l.target)) ∧
      snap2.stats.totalNodes
        = (buildFedSnapshot hav cfgDN communities now
            results).1.stats.totalNodes ∧
      snap2.stats.onlineNodes
        = (buildFedSnapshot hav cfgDN communities now
            results).1.stats.onlineNodes ∧
      snap2.stats.totalClients
        = (buildFedSnapshot hav cfgDN communities now
            results).1.stats.totalClients ∧
      snap2.stats.gateways
        = (buildFedSnapshot hav cfgDN communities now
            results).1.stats.gateways ∧
      (∀ c, histCount snap2.stats.communities c
        = histCount (buildFedSnapshot hav cfgDN communities now
            results).1.stats.communities c) := by
  have hbfs1 : (buildFedSnapshot hav cfgDN communities now results).1
      = applyCommunityTags (mergeResults now results).2
          (ProcessData hav (fedDomainNames communities cfgDN)
            (mergeResults now results).1) := rfl
  have hbfs2 : (buildFedSnapshot hav cfgDN communities now results).2
      = (mergeResults now results).2 := rfl
  rw [hbfs1, hbfs2]
  rw [hbfs1] at hn
  set ncm := (mergeResults now results).2 with hncm
  set dnames := fedDomainNames communities cfgDN with hdnames
  set merged := (mergeResults now results).1 with hmerged
  set snap0 := ProcessData hav dnames merged with hsnap0
  set S := applyCommunityTags ncm snap0 with hS
  set cache : StateCache :=
    { communities := communities
      sources := sources
      nodeCommMap := ncm
      snapNodes := S.nodeList.map nodeToRaw
      snapLinks := S.links.map linkToRaw
      savedAt := now2 } with hcache
  set raw2 : MeshviewerData :=
    { timestamp := now2, nodes := S.nodeList.map nodeToRaw,
      links := S.links.map linkToRaw } with hraw2
  set snap2 := applyCommunityTags ncm (ProcessData hav dnames raw2) with hsnap2
  have hsave : SaveState communities sources ncm S now2 = some cache := by
    unfold SaveState
    rw [if_neg (by simpa using hn)]
  have hrest : RestoreState hav cfgDN cache = some snap2 := by
    unfold RestoreState
    rw [if_neg (by
      rw [hcache]
      rintro (h | h)
      · exact hc (List.length_eq_zero.mp h)
      · exact hs (List.length_eq_zero.mp h))]
  have hraw2nodes : raw2.nodes = snap0.nodeList.map nodeToRaw := by
    rw [hraw2]
    show S.nodeList.map nodeToRaw = _
    rw [hS]
    exact applyCommunityTags_nodeList_toRaw ncm snap0
  have hids2 : raw2.nodes.map RawNode.nodeID
      = snap0.nodeList.map Node.nodeID := by
    rw [hraw2nodes, List.map_map]
    rfl
  have hperm0 : List.Perm (snap0.nodeList.map Node.nodeID)
      (merged.nodes.map RawNode.nodeID) := by
    rw [hsnap0]
    exact ProcessData_nodeIDs_perm hav dnames merged
  have hkeysS : ∀ id, id ∈ S.nodes.map Prod.fst ↔
      id ∈ merged.nodes.map RawNode.nodeID := by
    intro id
    rw [hS, applyCommunityTags_keys, hsnap0, ProcessData_nodes,
      processLinks_keys]
    exact buildNodeMap_keys_mem dnames merged.nodes id
  have hkeys2 : ∀ id,
      id ∈ (ProcessData hav dnames raw2).nodes.map Prod.fst ↔
      id ∈ merged.nodes.map RawNode.nodeID := by
    intro id
    rw [ProcessData_nodes, processLinks_keys,
      buildNodeMap_keys_mem dnames raw2.nodes id, hids2]
    exact hperm0.mem_iff
  refine ⟨cache, snap2, hsave, hrest, ?_, ?_, ?_, ?_, ?_, ?_, ?_⟩
  · intro id
    rw [hsnap2, applyCommunityTags_keys, hkeys2 id, ← hkeysS id]
  · rw [hsnap2, applyCommunityTags_links, ProcessData_links,
      processLinks_endpoints, hraw2]
    show (S.links.map linkToRaw).map (fun rl => (rl.source, rl.target)) = _
    rw [List.map_map]
    rfl
  · rw [hsnap2, hS,
      (applyCommunityTags_scalars ncm (ProcessData hav dnames raw2)).1,
      (applyCommunityTags_scalars ncm snap0).1,
      ProcessData_totalNodes, hsnap0, ProcessData_totalNodes,
      hraw2nodes, List.length_map, hsnap0, nodeList_length_eq]
  · rw [hsnap2, hS,
      (applyCommunityTags_scalars ncm (ProcessData hav dnames raw2)).2.1,
      (applyCommunityTags_scalars ncm snap0).2.1,
      ProcessData_onlineNodes, hsnap0, ProcessData_onlineNodes,
      ← List.countP_eq_length_filter, ← List.countP_eq_length_filter,
      hraw2nodes, List.countP_map,
      show ((fun rn : RawNode => rn.isOnline) ∘ nodeToRaw)
          = (fun n : Node => n.isOnline) from funext (fun n => rfl),
      hsnap0]
    exact nodeList_countP_eq hav dnames merged (fun n => n.isOnline)
      (fun rn => rn.isOnline) (fun n => rfl) (fun rn => rfl)
  · rw [hsnap2, hS,
      (applyCommunityTags_scalars ncm (ProcessData hav dnames raw2)).2.2.1,
      (applyCommunityTags_scalars ncm snap0).2.2.1,
      ProcessData_totalClients, hsnap0, ProcessData_totalClients,
      sum_map_filter, sum_map_filter, hraw2nodes, List.map_map,
      show ((fun rn : RawNode =>
          if rn.isOnline = true then rn.clients else 0) ∘ nodeToRaw)
          = (fun n : Node => if n.isOnline = true then n.clients else 0) from
        funext (fun n => rfl),
      hsnap0]
    exact nodeList_sum_eq hav dnames merged
      (fun n => if n.isOnline = true then n.clients else 0)
      (fun rn => if rn.isOnline = true then rn.clients else 0)
      (fun n => rfl) (fun rn => rfl)
  · rw [hsnap2, hS,
      (applyCommunityTags_scalars ncm (ProcessData hav dnames raw2)).2.2.2,
      (applyCommunityTags_scalars ncm snap0).2.2.2,
      ProcessData_gateways, hsnap0, ProcessData_gateways,
      ← List.countP_eq_length_filter, ← List.countP_eq_length_filter,
      hraw2nodes, List.countP_map,
      show ((fun rn : RawNode => rn.isGateway) ∘ nodeToRaw)
          = (fun n : Node => n.isGateway) from funext (fun n => rfl),
      hsnap0]
    exact nodeList_countP_eq hav dnames merged (fun n => n.isGateway)
      (fun rn => rn.isGateway) (fun n => rfl) (fun rn => rfl)
  · intro c
    rw [hsnap2, hS, applyCommunityTags_communities,
      applyCommunityTags_communities]
    have hco2 : ∀ p ∈ (ProcessData hav dnames raw2).nodes,
        p.2.nodeID = p.1 := by
      rw [ProcessData_nodes]
      exact processLinks_coherent hav raw2.links _
        (buildNodeMap_coherent dnames raw2.nodes)
    have hco0 : ∀ p ∈ snap0.nodes, p.2.nodeID = p.1 := by
      rw [hsnap0, ProcessData_nodes]
      exact processLinks_coherent hav merged.links _
        (buildNodeMap_coherent dnames merged.nodes)
    rw [commStats_histCount_keys ncm _ hco2 c,
      commStats_histCount_keys ncm _ hco0 c]
    have hnd2 : ((ProcessData hav dnames raw2).nodes.map Prod.fst).Nodup := by
      rw [ProcessData_nodes, processLinks_keys]
      exact buildNodeMap_keys_nodup _ _
    have hnd0 : (snap0.nodes.map Prod.fst).Nodup := by
      rw [hsnap0, ProcessData_nodes, processLinks_keys]
      exact buildNodeMap_keys_nodup _ _
    have h0 : ∀ id, id ∈ snap0.nodes.map Prod.fst ↔
        id ∈ merged.nodes.map RawNode.nodeID := by
      intro id
      rw [hsnap0, ProcessData_nodes, processLinks_keys]
      exact buildNodeMap_keys_mem dnames merged.nodes id
    have hpermkeys : List.Perm
        ((ProcessData hav dnames raw2).nodes.map Prod.fst)
        (snap0.nodes.map Prod.fst) := by
      rw [List.perm_ext_iff_of_nodup hnd2 hnd0]
      intro id
      rw [hkeys2 id, h0 id]
    exact (hpermkeys.map _).sum_eq

/-- C6 witness inputs: one community, one source, one fetched result with a
single online node. -/
def havC6 : HaversineFn := fun _ _ _ _ => 0

def commC6 : List Community := [{ key := "x", name := "X" }]

def srcC6 : List CommunitySource := [{ communityKey := "x" }]

def rawFetchedC6 : MeshviewerData :=
  { timestamp := "t",
    nodes := [{ nodeID := "aa:bb", hostname := "h", isOnline := true }],
    links := [] }

def resC6 : List FetchResult :=
  [{ communityKey := "x", communityKeys := ["x"], data := some rawFetchedC6 }]

theorem c6_save_restore_roundtrip_witness :
    ∃ cache snap2,
      SaveState commC6 srcC6 (buildFedSnapshot havC6 [] commC6 "t0" resC6).2
          (buildFedSnapshot havC6 [] commC6 "t0" resC6).1 "t1" = some cache ∧
        RestoreState havC6 [] cache = some snap2 ∧
        snap2.stats.totalNodes
          = (buildFedSnapshot havC6 [] commC6 "t0" resC6).1.stats.totalNodes := by
  obtain ⟨cache, snap2, h1, h2, _, _, h5, _, _, _, _⟩ :=
    c6_save_restore_roundtrip havC6 [] commC6 srcC6 "t0" "t1" resC6
      (by decide) (by decide) (by decide)
  exact ⟨cache, snap2, h1, h2, h5⟩
